import Mathlib

/-!
# Verification of the `coffee-lab-api` record store (`src/db.js`)

This file shallowly embeds the "db" layer of the repository: a generic,
schema-aware CRUD engine over named collections of JSON-like documents
(`src/db.js`).  Persistence (`readData`/`writeData`, which serialize a
collection to a JSON file) is modelled by explicit state passing: every
operation receives the current collection (a list of documents) and the
mutating operations return the collection that the code would persist.
The JSON round-trip performed by the file layer is the identity on the
values our operations construct, so nothing is lost by this.

JavaScript dynamic values are modelled by the inductive type `JsVal`:
strings, numbers (modelled as rationals; the non-finite doubles `NaN`
and `Infinity` never occur in stored documents because every numeric
coercion in the code is guarded by `|| 0`), booleans, `null`,
`undefined`, arrays and objects.  Objects are association lists in
property order, matching JavaScript's own ordered-string-key object
semantics; property update (`o.k = v`) keeps the position of an
existing key and appends a fresh one, exactly as JS does.

Exceptions (`JSON.parse` failures, `.toUpperCase()` on a non-string,
property access on `null`/`undefined`) are modelled with `Except`.
`nanoid(8)` and the two clock readings (`new Date().toLocaleDateString`,
`new Date().toISOString`) are impure inputs and are passed to `create`
as explicit parameters.
-/

set_option maxHeartbeats 1000000

namespace CoffeeLab

/-- A JavaScript runtime value, as stored in and flowing through `db.js`.
Numbers are rationals (finite doubles; the code never stores `NaN` or
`Infinity`).  `undefined` is a first-class value so that absent-property
reads and the `=== undefined` comparisons are faithful. -/
inductive JsVal where
  | str : String → JsVal
  | num : Rat → JsVal
  | bool : Bool → JsVal
  | null : JsVal
  | undefined : JsVal
  | arr : List JsVal → JsVal
  | obj : List (String × JsVal) → JsVal

abbrev Obj := List (String × JsVal)

namespace JsVal

/-- JavaScript truthiness.  (`NaN` is falsy in JS but is never stored,
see the header comment.) -/
def truthy : JsVal → Bool
  | .str s => s ≠ ""
  | .num q => q ≠ 0
  | .bool b => b
  | .null => false
  | .undefined => false
  | .arr _ => true
  | .obj _ => true

/-- JavaScript strict equality `===`.  On primitives it is value
equality.  On arrays and objects JS compares references; no aliasing is
expressible in this embedding (every composite reaching a comparison in
`db.js` comes from a distinct parse or literal), so composite
comparisons are `false`. -/
def seq : JsVal → JsVal → Bool
  | .str a, .str b => a = b
  | .num a, .num b => a = b
  | .bool a, .bool b => a = b
  | .null, .null => true
  | .undefined, .undefined => true
  | _, _ => false

end JsVal

/-- Property read `o[k]` on an object: first entry wins (keys of a JS
object are unique, and our constructions keep them unique), absent
properties read as `undefined`. -/
def getF (o : Obj) (k : String) : JsVal :=
  match o.lookup k with
  | some v => v
  | none => .undefined

/-- `Object.prototype.hasOwnProperty.call(o, k)`. -/
def hasF (o : Obj) (k : String) : Bool :=
  (o.lookup k).isSome

/-- Property write `o[k] = v`: replaces the value in place if the key
exists (keeping its position), else appends — JS property order. -/
def setF (o : Obj) (k : String) (v : JsVal) : Obj :=
  match o with
  | [] => [(k, v)]
  | (k', v') :: rest =>
      if k' = k then (k', v) :: rest else (k', v') :: setF rest k v

/-- `delete o[k]`. -/
def delF (o : Obj) (k : String) : Obj :=
  o.filter (fun e => e.1 ≠ k)

/-- The object spread `{ ...p, ...u }`: keys of `p` in order with values
overridden by `u` where present, then the keys of `u` not in `p`, in
`u`'s order. -/
def mergeObj (p u : Obj) : Obj :=
  (p.map (fun e => (e.1, if hasF u e.1 then getF u e.1 else e.2)))
    ++ u.filter (fun e => ! hasF p e.1)

/-! ## Platform string/number helpers used by `db.js` -/

/-- Decimal string of a rational whose denominator divides a power of
ten (every finite double printed by JS has this form); used only by
`JsVal.toStr` below for numeric inputs, which no API caller produces. -/
def jsNumToString (q : Rat) : String :=
  if q.den = 1 then toString q.num
  else
    match (List.range 40).find? (fun k => (q * (10 : Rat) ^ (k + 1)).den = 1) with
    | some k =>
        let scaled := (q * (10 : Rat) ^ (k + 1)).num
        let sign := if scaled < 0 then "-" else ""
        let a := scaled.natAbs
        let ip := a / 10 ^ (k + 1)
        let fp := a % 10 ^ (k + 1)
        let fs := toString fp
        sign ++ toString ip ++ "." ++
          String.mk (List.replicate (k + 1 - fs.length) '0') ++ fs
    | none => toString q.num ++ "/" ++ toString q.den

/-- Is the value `null` or `undefined`?  (Array `join` renders these
elements as the empty string.) -/
def JsVal.isNullish : JsVal → Bool
  | .null => true
  | .undefined => true
  | _ => false

/-- ASCII lower-casing, one character (JS `toLowerCase`; non-ASCII
letters are left alone, which for `slugify` is indistinguishable from
JS since every non-ASCII character is stripped right after). -/
def asciiLower (c : Char) : Char :=
  if 'A' ≤ c ∧ c ≤ 'Z' then Char.ofNat (c.toNat + 32) else c

/-- ASCII upper-casing, one character (JS `toUpperCase` for the coupon
codes this API handles). -/
def asciiUpper (c : Char) : Char :=
  if 'a' ≤ c ∧ c ≤ 'z' then Char.ofNat (c.toNat - 32) else c

/-- `s.trim()`: strip whitespace from both ends. -/
def trimChars (cs : List Char) : List Char :=
  ((cs.dropWhile Char.isWhitespace).reverse.dropWhile Char.isWhitespace).reverse

/-- Recursive worker for JS stringification (arrays join with `","`,
`null`/`undefined` elements joining as empty). -/
def jsToStrRec : JsVal → String
  | .str s => s
  | .num q => jsNumToString q
  | .bool b => if b then "true" else "false"
  | .null => "null"
  | .undefined => "undefined"
  | .obj _ => "[object Object]"
  | .arr vs => String.intercalate ","
      (vs.attach.map (fun x =>
        if x.1.isNullish then "" else jsToStrRec x.1))
  decreasing_by
    have h := List.sizeOf_lt_of_mem x.2
    simp only [JsVal.arr.sizeOf_spec]
    omega

/-- JavaScript `String(v)` / `v.toString()`; same function as
`jsToStrRec`, with the non-array cases exposed as a plain match. -/
def JsVal.toStr (v : JsVal) : String :=
  match v with
  | .arr vs => jsToStrRec (.arr vs)
  | .str s => s
  | .num q => jsNumToString q
  | .bool b => if b then "true" else "false"
  | .null => "null"
  | .undefined => "undefined"
  | .obj _ => "[object Object]"

/-- Replace each maximal run of whitespace by a single `'-'`
(the `replace` step of `slugify` with the global whitespace-run
pattern): all but the last character of a run are dropped, the last
becomes `'-'`. -/
def wsToDash : List Char → List Char
  | [] => []
  | [c] => if c.isWhitespace then ['-'] else [c]
  | c :: c' :: cs =>
      if c.isWhitespace then
        if c'.isWhitespace then wsToDash (c' :: cs)
        else '-' :: wsToDash (c' :: cs)
      else c :: wsToDash (c' :: cs)

/-- Collapse each run of `'-'` to a single `'-'`
(the repeated-dash-collapsing `replace` step of `slugify`). -/
def collapseDashes : List Char → List Char
  | [] => []
  | [c] => [c]
  | c :: c' :: cs =>
      if c = '-' ∧ c' = '-' then collapseDashes (c' :: cs)
      else c :: collapseDashes (c' :: cs)

/-- `slugify` from `db.js`: stringify, lower-case, trim, whitespace
runs to `-`, drop `[^\w-]`, collapse `--+`. -/
def slugify (text : JsVal) : String :=
  String.mk (collapseDashes
    ((wsToDash (trimChars (text.toStr.toList.map asciiLower))).filter
      (fun c => c.isAlphanum ∨ c = '_' ∨ c = '-')))

/-- Collapse each maximal whitespace run to a single character
(preparation for `split` on a whitespace-run pattern). -/
def collapseWsRuns : List Char → List Char
  | [] => []
  | [c] => [c]
  | c :: c' :: cs =>
      if c.isWhitespace ∧ c'.isWhitespace then collapseWsRuns (c' :: cs)
      else c :: collapseWsRuns (c' :: cs)

/-- Split at every whitespace character. -/
def splitEachWs : List Char → List Char → List String
  | [], acc => [String.mk acc.reverse]
  | c :: cs, acc =>
      if c.isWhitespace then String.mk acc.reverse :: splitEachWs cs []
      else splitEachWs cs (c :: acc)

/-- `text.split` on a whitespace-run pattern: after collapsing each
run to one character, split at each remaining whitespace character
(leading/trailing runs contribute empty segments, as in JS). -/
def splitWs (s : String) : List String := splitEachWs (collapseWsRuns s.toList) []

/-- `calculateReadTime` from `db.js`.  The argument is dynamic: a falsy
value gives a word count of 0, a truthy string is split on whitespace,
and a truthy non-string raises `TypeError` (`.split` is not a
function). -/
def calculateReadTime (text : JsVal) : Except String String :=
  if text.truthy then
    match text with
    | .str s =>
        .ok (toString (((splitWs s).length + 199) / 200) ++ " min read")
    | _ => .error "TypeError: text.split is not a function"
  else .ok ("0 min read")

def digitsToNat (ds : List Char) : Nat :=
  ds.foldl (fun n c => 10 * n + (c.toNat - 48)) 0

/-- Value of a hexadecimal digit character (used for `0x` integers
and JSON `\u` escapes): upper-case letters are folded to lower case
first. -/
def hexDigitVal (c : Char) : Option Nat :=
  let lower := asciiLower c
  if c.isDigit then some (c.toNat - 48)
  else if 'a' ≤ lower ∧ lower ≤ 'f' then some (10 + (lower.toNat - 97))
  else none

/-- Split an optional leading sign off a character list, JS-style
(`+` and `-` both accepted where this is used). -/
def signSplit (cs : List Char) : Int × List Char :=
  match cs with
  | '-' :: r => (-1, r)
  | '+' :: r => (1, r)
  | _ => (1, cs)

/-- JS `parseFloat` on a string: skip leading whitespace, optional
sign, then the longest decimal-literal prefix (`digits[.digits][e±d]`);
`none` models `NaN`.  (The `"Infinity"` literal is outside this finite
model and also maps to `none`; no value in this repository can reach
it.) -/
def parseFloatChars (cs0 : List Char) : Option Rat :=
  let cs := cs0.dropWhile Char.isWhitespace
  let sr := signSplit cs
  let sign : Rat := (sr.1 : Rat)
  let cs := sr.2
  let ip := cs.takeWhile Char.isDigit
  let cs1 := cs.dropWhile Char.isDigit
  let (fp, cs2) : List Char × List Char :=
    match cs1 with
    | '.' :: r => (r.takeWhile Char.isDigit, r.dropWhile Char.isDigit)
    | _ => ([], cs1)
  if ip.isEmpty ∧ fp.isEmpty then none
  else
    let mant : Rat :=
      (digitsToNat ip : Rat) + (digitsToNat fp : Rat) / (10 : Rat) ^ fp.length
    let expo : Int :=
      match cs2 with
      | e :: r =>
          if e = 'e' ∨ e = 'E' then
            let er := signSplit r
            let ed := er.2.takeWhile Char.isDigit
            if ed.isEmpty then 0 else er.1 * (digitsToNat ed : Int)
          else 0
      | [] => 0
    some (sign * mant * (10 : Rat) ^ expo)

/-- JS `parseInt` (no radix: decimal, or hex after `0x`/`0X`) on a
string; `none` models `NaN`. -/
def parseIntChars (cs0 : List Char) : Option Int :=
  let sr := signSplit (cs0.dropWhile Char.isWhitespace)
  let sign := sr.1
  match sr.2 with
  | '0' :: x :: r =>
      if x = 'x' ∨ x = 'X' then
        let hd := r.takeWhile (fun c => (hexDigitVal c).isSome)
        if hd.isEmpty then none
        else some (sign * (hd.foldl (fun acc c => 16 * acc + (hexDigitVal c).getD 0) 0 : Nat))
      else
        let ds := ('0' :: x :: r).takeWhile Char.isDigit
        some (sign * (digitsToNat ds : Int))
  | _ =>
      let ds := sr.2.takeWhile Char.isDigit
      if ds.isEmpty then none else some (sign * (digitsToNat ds : Int))

/-- Integer part, truncating toward zero (`parseInt` applied to the
printed form of a finite number). -/
def ratTrunc (q : Rat) : Int :=
  if 0 ≤ q then q.floor else q.ceil

/-- JS `parseFloat(v)` for a dynamic argument: numbers pass through,
strings are parsed, arrays convert via `String(v)` — whose numeric
prefix is that of the first element (`','` never extends a number) —
and everything else is `NaN` (`none`). -/
def jsParseFloat : JsVal → Option Rat
  | .num q => some q
  | .str s => parseFloatChars s.toList
  | .arr [] => none
  | .arr (v :: _) =>
      match v with
      | .null => none
      | .undefined => none
      | v' => jsParseFloat v'
  | _ => none

/-- JS `parseInt(v)` for a dynamic argument, analogously. -/
def jsParseInt : JsVal → Option Int
  | .num q =>
      if q.den = 1 then some q.num
      else parseIntChars (jsNumToString q).toList
  | .str s => parseIntChars s.toList
  | .arr [] => none
  | .arr (v :: _) =>
      match v with
      | .null => none
      | .undefined => none
      | v' => jsParseInt v'
  | _ => none

/-! ## `JSON.parse`

A fuel-indexed recursive-descent parser for the JSON grammar, faithful
to `JSON.parse`: strict number syntax, string escapes, no trailing
garbage, duplicate object keys resolved last-wins (at the first
occurrence's position, which is what JS objects do). -/

def isJsonWs (c : Char) : Bool :=
  [32, 9, 10, 13].contains c.toNat

/-- Parse the body of a JSON string (after the opening quote), up to
and including the closing quote. -/
def jsonParseStr : Nat → List Char → Option (String × List Char)
  | 0, _ => none
  | _ + 1, [] => none
  | fuel + 1, c :: cs =>
      if c = '"' then some ("", cs)
      else if c = '\\' then
        match cs with
        | [] => none
        | e :: cs' =>
            let dec : Option (Char × List Char) :=
              if e = '"' then some ('"', cs')
              else if e = '\\' then some ('\\', cs')
              else if e = '/' then some ('/', cs')
              else if e = 'b' then some ('\x08', cs')
              else if e = 'f' then some ('\x0c', cs')
              else if e = 'n' then some ('\n', cs')
              else if e = 'r' then some ('\r', cs')
              else if e = 't' then some ('\t', cs')
              else if e = 'u' then
                match cs' with
                | a :: b :: c2 :: d :: cs'' =>
                    match hexDigitVal a, hexDigitVal b, hexDigitVal c2, hexDigitVal d with
                    | some ha, some hb, some hc, some hd =>
                        some (Char.ofNat (((ha * 16 + hb) * 16 + hc) * 16 + hd), cs'')
                    | _, _, _, _ => none
                | _ => none
              else none
            match dec with
            | some (ch, rest) =>
                match jsonParseStr fuel rest with
                | some (s, rest') => some (String.mk (ch :: s.toList), rest')
                | none => none
            | none => none
      else if c.toNat < 0x20 then none
      else
        match jsonParseStr fuel cs with
        | some (s, rest) => some (String.mk (c :: s.toList), rest)
        | none => none

/-- Parse a JSON number at the head of the input (strict JSON grammar:
`-? (0 | [1-9][0-9]*) (. [0-9]+)? ([eE][+-]?[0-9]+)?`). -/
def jsonParseNum (cs : List Char) : Option (Rat × List Char) :=
  let (sign, cs1) : Rat × List Char :=
    match cs with
    | '-' :: r => (-1, r)
    | _ => (1, cs)
  let ip := cs1.takeWhile Char.isDigit
  let cs2 := cs1.dropWhile Char.isDigit
  if ip.isEmpty then none
  else if ip.length > 1 ∧ ip.headD '0' = '0' then none
  else
    let (fpOk, fp, cs3) : Bool × List Char × List Char :=
      match cs2 with
      | '.' :: r =>
          let ds := r.takeWhile Char.isDigit
          if ds.isEmpty then (false, [], cs2)
          else (true, ds, r.dropWhile Char.isDigit)
      | _ => (true, [], cs2)
    if ¬ fpOk then none
    else
      let (expOk, expo, cs4) : Bool × Int × List Char :=
        match cs3 with
        | e :: r =>
            if e = 'e' ∨ e = 'E' then
              let er := signSplit r
              let ds := er.2.takeWhile Char.isDigit
              if ds.isEmpty then (false, 0, cs3)
              else (true, er.1 * (digitsToNat ds : Int), er.2.dropWhile Char.isDigit)
            else (true, 0, cs3)
        | [] => (true, 0, cs3)
      if ¬ expOk then none
      else
        let mant : Rat :=
          (digitsToNat ip : Rat) + (digitsToNat fp : Rat) / (10 : Rat) ^ fp.length
        some (sign * mant * (10 : Rat) ^ expo, cs4)

mutual

/-- Parse one JSON value after skipping leading whitespace. -/
def jsonParseVal : Nat → List Char → Option (JsVal × List Char)
  | 0, _ => none
  | fuel + 1, cs0 =>
      match cs0.dropWhile isJsonWs with
      | [] => none
      | c :: cs =>
          if c = '{' then jsonParseMembers fuel [] true cs
          else if c = '[' then jsonParseElems fuel [] true cs
          else if c = '"' then
            match jsonParseStr (fuel + 1) cs with
            | some (s, rest) => some (.str s, rest)
            | none => none
          else if c = 't' then
            if String.mk (cs.take 3) = "rue" then some (.bool true, cs.drop 3)
            else none
          else if c = 'f' then
            if String.mk (cs.take 4) = "alse" then some (.bool false, cs.drop 4)
            else none
          else if c = 'n' then
            if String.mk (cs.take 3) = "ull" then some (.null, cs.drop 3)
            else none
          else
            match jsonParseNum (c :: cs) with
            | some (q, rest) => some (.num q, rest)
            | none => none

/-- Parse array elements up to the closing `]` (`first` marks the
position right after `[`). -/
def jsonParseElems : Nat → List JsVal → Bool → List Char → Option (JsVal × List Char)
  | 0, _, _, _ => none
  | fuel + 1, acc, first, cs0 =>
      match cs0.dropWhile isJsonWs with
      | [] => none
      | c :: cs =>
          if c = ']' ∧ first then some (.arr [], cs)
          else
            let csIn := if first then c :: cs else cs
            if ¬ first ∧ c = ']' then some (.arr acc.reverse, cs)
            else if ¬ first ∧ c ≠ ',' then none
            else
              match jsonParseVal fuel csIn with
              | some (v, rest) =>
                  match rest.dropWhile isJsonWs with
                  | ']' :: rest' => some (.arr (v :: acc).reverse, rest')
                  | ',' :: rest' => jsonParseElems fuel (v :: acc) false (',' :: rest')
                  | _ => none
              | none => none

/-- Parse object members up to the closing `}` (`first` marks the
position right after the opening brace);
duplicate keys are resolved by `setF` (last value wins, first
position kept), as `JSON.parse` does. -/
def jsonParseMembers : Nat → Obj → Bool → List Char → Option (JsVal × List Char)
  | 0, _, _, _ => none
  | fuel + 1, acc, first, cs0 =>
      match cs0.dropWhile isJsonWs with
      | [] => none
      | c :: cs =>
          if c = '\x7d' ∧ first then some (.obj [], cs)
          else if ¬ first ∧ c = '\x7d' then some (.obj acc, cs)
          else
            let csK := if first then c :: cs else
              (if c = ',' then cs else [])
            if ¬ first ∧ c ≠ ',' then none
            else
              match csK.dropWhile isJsonWs with
              | '"' :: csK' =>
                  match jsonParseStr fuel csK' with
                  | some (key, rest) =>
                      match rest.dropWhile isJsonWs with
                      | ':' :: rest' =>
                          match jsonParseVal fuel rest' with
                          | some (v, rest'') =>
                              let acc' := setF acc key v
                              match rest''.dropWhile isJsonWs with
                              | '\x7d' :: rest3 => some (.obj acc', rest3)
                              | ',' :: rest3 =>
                                  jsonParseMembers fuel acc' false (',' :: rest3)
                              | _ => none
                          | none => none
                      | _ => none
                  | none => none
              | _ => none

end

/-- `JSON.parse(s)`: parse one value and require only whitespace after
it; `none` models the thrown `SyntaxError`. -/
def jsonParse (s : String) : Option JsVal :=
  match jsonParseVal (s.length * 4 + 4) s.toList with
  | some (v, rest) => if (rest.dropWhile isJsonWs).isEmpty then some v else none
  | none => none

/-- The message used for a modelled `JSON.parse` throw. -/
def jsonErr : String := "SyntaxError: Unexpected token in JSON"

/-- `JSON.parse` where the exception propagates. -/
def jsonParseE (s : String) : Except String JsVal :=
  match jsonParse s with
  | some v => .ok v
  | none => .error jsonErr

/-! ## The db layer (`src/db.js`) -/

/-- `a || b`. -/
def jsOr (a b : JsVal) : JsVal := if a.truthy then a else b

/-- The boolean coercion pattern `v === "true" || v === true` used for
every status flag. -/
def isTrueLike (v : JsVal) : Bool :=
  v.seq (.str "true") || v.seq (.bool true)

/-- `parseFloat(v) || 0` (`NaN` and `0` both give `0`). -/
def parseFloatOr0 (v : JsVal) : Rat := (jsParseFloat v).getD 0

/-- `parseInt(v) || 0`. -/
def parseIntOr0 (v : JsVal) : Int := (jsParseInt v).getD 0

/-- Property access `v[k]` on an arbitrary value: objects look the key
up, `null`/`undefined` raise `TypeError`, and other primitives /
arrays yield `undefined` for the keys this code reads. -/
def getProp (v : JsVal) (k : String) : Except String JsVal :=
  match v with
  | .obj o => .ok (getF o k)
  | .null => .error "TypeError: Cannot read properties of null"
  | .undefined => .error "TypeError: Cannot read properties of undefined"
  | _ => .ok .undefined

/-- `(v).toUpperCase()`: defined on strings, `TypeError` otherwise. -/
def jsToUpperCase (v : JsVal) : Except String JsVal :=
  match v with
  | .str s => .ok (.str (String.mk (s.toList.map asciiUpper)))
  | _ => .error "TypeError: v.toUpperCase is not a function"

/-- The `normalizeArray` closure defined identically inside `create`
and `update`: falsy becomes `[]`, arrays pass through, strings split on
`","` with each segment trimmed and empty segments dropped, any other
truthy value is wrapped in a singleton. -/
def normalizeArray (val : JsVal) : JsVal :=
  if ¬ val.truthy then .arr []
  else
    match val with
    | .arr vs => .arr vs
    | .str s =>
        .arr ((((s.splitOn ",").map String.trim).filter (fun t => t ≠ "")).map JsVal.str)
    | v => .arr [v]

/-- The predicate of `findByIdOrSlug` / `findIndex` / `delete`'s
`filter`: `item.id === identifier || item.slug === identifier`. -/
def matchesIdent (item : Obj) (identifier : JsVal) : Bool :=
  (getF item "id").seq identifier || (getF item "slug").seq identifier

/-- `findByIdOrSlug` from `db.js` (`data.find(...)`). -/
def findByIdOrSlug (data : List Obj) (identifier : JsVal) : Option Obj :=
  data.find? (fun item => matchesIdent item identifier)

/-- `db.getAll(entity)`: returns the stored collection as-is.  (The
entity name only selects which file is read; the collection is the
explicit state here.) -/
def getAll (data : List Obj) : List Obj := data

/-- `db.getByIdOrSlug(entity, identifier)`. -/
def getByIdOrSlug (data : List Obj) (identifier : JsVal) : Option Obj :=
  findByIdOrSlug data identifier

/-- The entity list of the `inStock` branch:
`["beans", "machines", "syrups", "sauces"]`. -/
def productEntities : List String := ["beans", "machines", "syrups", "sauces"]

/-- The entity list of the variants branches: `["beans", "syrups", "sauces"]`. -/
def consumableEntities : List String := ["beans", "syrups", "sauces"]

/-- Lines 66–89 of `db.js`: slug generation, the spread
`{ ...item, id, slug }`, the `isFeatured` cast, the product-only
`inStock` cast, and the guarded `discountPercentage` cast. -/
def createCore (entity freshId : String) (item : Obj) : Obj :=
  -- const nameSource = item.name || item.title || "item";
  -- const slug = slugify(nameSource);
  -- const newItem = { ...item, id, slug };
  let slug := slugify (jsOr (getF item "name") (jsOr (getF item "title") (.str "item")))
  let n0 := setF (setF item "id" (.str freshId)) "slug" (.str slug)
  -- newItem.isFeatured = item.isFeatured === "true" || item.isFeatured === true;
  let n1 := setF n0 "isFeatured" (.bool (isTrueLike (getF item "isFeatured")))
  -- inStock only for products
  let n2 :=
    if entity ∈ productEntities then
      setF n1 "inStock" (.bool (isTrueLike (getF item "inStock")))
    else delF n1 "inStock"
  -- if (item.discountPercentage) newItem.discountPercentage = parseFloat(..) || 0;
  if (getF item "discountPercentage").truthy then
    setF n2 "discountPercentage" (.num (parseFloatOr0 (getF item "discountPercentage")))
  else n2

/-- Lines 91–97: blog specific enhancements (`date`, `readTime`,
`category`, `excerpt`). -/
def createBlogStep (entity nowDate : String) (item n : Obj) : Except String Obj :=
  if entity = "blogs" then
    match calculateReadTime (jsOr (getF item "content") (.str "")) with
    | .error e => .error e
    | .ok rt =>
        .ok (setF (setF (setF (setF n
          "date" (.str nowDate))
          "readTime" (.str rt))
          "category" (jsOr (getF item "category") (jsOr (getF item "keyword") (.str "Uncategorized"))))
          "excerpt" (jsOr (getF item "excerpt") (.str "")))
  else .ok n

/-- Lines 99–112: `keywords` normalization and the `images`
array-only filter. -/
def createArraysStep (item n : Obj) : Obj :=
  let n5 := setF n "keywords" (normalizeArray (getF item "keywords"))
  setF n5 "images"
    (match getF item "images" with
     | .arr vs => .arr vs
     | _ => .arr [])

/-- Lines 114–127: consumables enhancements — `cupping_notes`, the
`variants` parse (a thrown `JSON.parse` error propagates) and the
price sync to the first variant. -/
def variantsSync (m0 : Obj) (variants : JsVal) : Except String Obj :=
  let m1 := setF m0 "variants" variants
  -- Sync main price to first variant's price for compatibility
  match variants with
  | .arr (v0 :: _) =>
      match getProp v0 "price" with
      | .error e => .error e
      | .ok p => .ok (setF m1 "price" p)
  | _ => .ok m1

def createConsumablesStep (entity : String) (item n : Obj) : Except String Obj :=
  if entity ∈ consumableEntities then
    let m0 := setF n "cupping_notes" (normalizeArray (getF item "cupping_notes"))
    if (getF item "variants").truthy then
      match getF item "variants" with
      | .str s =>
          match jsonParseE s with
          | .error e => .error e
          | .ok variants => variantsSync m0 variants
      | v => variantsSync m0 v
    else .ok m0
  else .ok n

/-- The create-time coercion of a dynamic structured field:
`typeof v === "string" ? JSON.parse(v) : v || fallback` (the parse
failure throws). -/
def createDynField (v fallback : JsVal) : Except String JsVal :=
  match v with
  | .str s => jsonParseE s
  | v => .ok (jsOr v fallback)

/-- Lines 129–139: machine dynamic props (`specifications`,
`features`), parse errors propagate. -/
def createMachinesStep (entity : String) (item n : Obj) : Except String Obj :=
  if entity = "machines" then
    match createDynField (getF item "specifications") (.obj []) with
    | .error e => .error e
    | .ok specs =>
        match createDynField (getF item "features") (.obj []) with
        | .error e => .error e
        | .ok feats => .ok (setF (setF n "specifications" specs) "features" feats)
  else .ok n

/-- Lines 141–157: order enhancements and the removal of the generic
fields `slug`, `keywords`, `images`, `isFeatured`. -/
def createOrdersStep (entity nowIso : String) (item n : Obj) : Except String Obj :=
  if entity = "orders" then
    let o0 := setF n "createdAt" (.str nowIso)
    let o1 := setF o0 "status" (jsOr (getF item "status") (.str "Pending"))
    match createDynField (getF item "items") (.arr []) with
    | .error e => .error e
    | .ok itemsV =>
        let o2 := setF o1 "items" itemsV
        let o3 := setF o2 "totalAmount" (.num (parseFloatOr0 (getF item "totalAmount")))
        let o4 := setF o3 "isPaid" (.bool (isTrueLike (getF item "isPaid")))
        -- Remove irrelevant fields added by generic logic
        .ok (delF (delF (delF (delF o4 "slug") "keywords") "images") "isFeatured")
  else .ok n

/-- Lines 159–169: coupon enhancements; `toUpperCase` on a truthy
non-string `code` throws. -/
def createCouponsStep (entity : String) (item n : Obj) : Except String Obj :=
  if entity = "coupons" then
    let c0 := setF n "isActive" (.bool (isTrueLike (getF item "isActive")))
    let c1 := setF c0 "value" (.num (parseFloatOr0 (getF item "value")))
    let c2 := setF c1 "maxUses" (.num ((parseIntOr0 (getF item "maxUses") : Int) : Rat))
    let c3 := setF c2 "maxDiscount" (.num (parseFloatOr0 (getF item "maxDiscount")))
    let c4 := setF c3 "currentUses" (.num 0)
    let c5 := setF c4 "expiryDate" (jsOr (getF item "expiryDate") (.str ""))
    let c6 := setF c5 "type" (jsOr (getF item "type") (.str "percentage"))
    match jsToUpperCase (jsOr (getF item "code") (.str "")) with
    | .error e => .error e
    | .ok codeV => .ok (setF c6 "code" codeV)
  else .ok n

/-- `db.create(entity, item)` from `db.js`, as the composition of the
stages above in source order.  `freshId` stands for `nanoid(8)`,
`nowDate` for `new Date().toLocaleDateString("en-GB")` and `nowIso`
for `new Date().toISOString()`.  `data` is the persisted collection
read at entry; on success the returned pair is (the created document,
the collection as persisted by `writeData`); an `.error` models a
thrown exception, before which nothing is written. -/
def create (entity : String) (freshId nowDate nowIso : String)
    (item : Obj) (data : List Obj) : Except String (Obj × List Obj) :=
  (createBlogStep entity nowDate item (createCore entity freshId item)).bind fun n4 =>
  (createConsumablesStep entity item (createArraysStep item n4)).bind fun n7 =>
  (createMachinesStep entity item n7).bind fun n8 =>
  (createOrdersStep entity nowIso item n8).bind fun n9 =>
  (createCouponsStep entity item n9).bind fun n10 =>
  -- data.push(newItem); writeData(entity, data); return newItem;
  .ok (n10, data ++ [n10])

/-- The `if (updates.x && typeof updates.x === "string") try {
updates.x = JSON.parse(updates.x) } catch { updates.x = fallback }`
pattern of `db.update` (used for `specifications`, `features` and
order `items`; a string is truthy exactly when non-empty). -/
def parseFieldIfStr (u : Obj) (k : String) (fallback : JsVal) : Obj :=
  match getF u k with
  | .str s =>
      if s = "" then u
      else setF u k ((jsonParse s).getD fallback)
  | _ => u

/-- Lines 183–197: the guarded `try`/`catch` parses of
`specifications` and `features`. -/
def updDynamicProps (u : Obj) : Obj :=
  parseFieldIfStr (parseFieldIfStr u "specifications" (.obj [])) "features" (.obj [])

/-- The `if (updates.hasOwnProperty(key)) updates[key] = f(updates[key])`
pattern used throughout `db.update`. -/
def condSetF (o : Obj) (key : String) (f : JsVal → JsVal) : Obj :=
  if hasF o key then setF o key (f (getF o key)) else o

/-- `if (updates.hasOwnProperty(key)) delete updates[key]`. -/
def condDelF (o : Obj) (key : String) : Obj :=
  if hasF o key then delF o key else o

/-- Lines 199–214: core status flag updates (`isFeatured`, the
product-only `inStock`, `discountPercentage`), each only when the key
is present (for `inStock`, the entity test selects coercion or
deletion). -/
def updFlags (entity : String) (u : Obj) : Obj :=
  let u3 := condSetF u "isFeatured" (fun v => .bool (isTrueLike v))
  let u4 :=
    if entity ∈ productEntities then
      condSetF u3 "inStock" (fun v => .bool (isTrueLike v))
    else condDelF u3 "inStock"
  condSetF u4 "discountPercentage" (fun v => .num (parseFloatOr0 v))

/-- Lines 216–221: blog `readTime` recomputation when `content` is
part of the payload (throws on a truthy non-string `content`). -/
def updBlogStep (entity : String) (u : Obj) : Except String Obj :=
  if entity = "blogs" ∧ (getF u "content").truthy then
    match calculateReadTime (getF u "content") with
    | .error e => .error e
    | .ok rt => .ok (setF u "readTime" (.str rt))
  else .ok u

/-- Lines 223–238: `keywords` and `cupping_notes` normalization when
present. -/
def updListFields (u : Obj) : Obj :=
  condSetF (condSetF u "keywords" (fun v => normalizeArray v))
    "cupping_notes" (fun v => normalizeArray v)

/-- Lines 240–255: the consumables `variants` update inside
`try { parse; sync price } catch { updates.variants = [] }`; total,
since the `catch` swallows both the parse failure and the
first-variant property-access failure. -/
def updVariantsStep (entity : String) (u : Obj) : Obj :=
  if entity ∈ consumableEntities ∧ (getF u "variants").truthy then
    match (match getF u "variants" with
           | .str s =>
               match jsonParseE s with
               | .error e => .error e
               | .ok variants => variantsSync u variants
           | v => variantsSync u v : Except String Obj) with
    | .ok m => m
    | .error _ => setF u "variants" (.arr [])
  else u

/-- Lines 257–267: order `items` `try`/`catch` parse. -/
def updItemsStep (entity : String) (u : Obj) : Obj :=
  if entity = "orders" then parseFieldIfStr u "items" (.arr []) else u

/-- Lines 269–286: coupon field updates when present (`toUpperCase`
on a truthy non-string `code` throws). -/
def updCouponsStep (entity : String) (u : Obj) : Except String Obj :=
  if entity = "coupons" then
    let c3 :=
      condSetF (condSetF (condSetF (condSetF u
        "isActive" (fun v => .bool (isTrueLike v)))
        "value" (fun v => .num (parseFloatOr0 v)))
        "maxUses" (fun v => .num ((parseIntOr0 v : Int) : Rat)))
        "maxDiscount" (fun v => .num (parseFloatOr0 v))
    if hasF c3 "code" then
      match jsToUpperCase (jsOr (getF c3 "code") (.str "")) with
      | .error e => .error e
      | .ok codeV => .ok (setF c3 "code" codeV)
    else .ok c3
  else .ok u

/-- The normalization `db.update` performs on the `updates` bag
(lines 183–286 of `db.js`), before the shallow merge, as the
composition of the stages above in source order.  An `.error` models
a thrown exception (possible only from the blogs `calculateReadTime`
call and the coupons `toUpperCase` call; every `JSON.parse` here is
wrapped in `try`/`catch`). -/
def normUpdates (entity : String) (u : Obj) : Except String Obj :=
  (updBlogStep entity (updFlags entity (updDynamicProps u))).bind fun u6 =>
  updCouponsStep entity (updItemsStep entity (updVariantsStep entity (updListFields u6)))

/-- `db.update(entity, identifier, updates)`: find the first document
matching by `id` or `slug` (`null`, i.e. `none`, when absent),
normalize the updates bag, shallow-merge it over the document and
persist.  Returns (merged document, persisted collection). -/
def update (entity : String) (identifier : JsVal) (u : Obj)
    (data : List Obj) : Except String (Option (Obj × List Obj)) :=
  match data.findIdx? (fun item => matchesIdent item identifier) with
  | none => .ok none
  | some i =>
      (normUpdates entity u).bind fun u1 =>
      let prev := (data.get? i).getD []
      let merged := mergeObj prev u1
      .ok (some (merged, data.set i merged))

/-- `db.delete(entity, identifier)`: find the first matching document;
if present, persist the collection filtered of every matching document
and return the found one. -/
def delete (data : List Obj) (identifier : JsVal) : Option (Obj × List Obj) :=
  match findByIdOrSlug data identifier with
  | none => none
  | some itemToDelete =>
      some (itemToDelete, data.filter (fun item => ! matchesIdent item identifier))

/-! ## Object-algebra lemmas -/

theorem lookup_cons_self (a : String) (b : JsVal) (l : Obj) :
    ((a, b) :: l).lookup a = some b := by
  simp [List.lookup]

theorem lookup_cons_ne (a k : String) (b : JsVal) (l : Obj) (h : k ≠ a) :
    ((a, b) :: l).lookup k = l.lookup k := by
  simp [List.lookup, beq_eq_false_iff_ne.mpr h]

theorem lookup_setF (o : Obj) (k k' : String) (v : JsVal) :
    (setF o k v).lookup k' = if k' = k then some v else o.lookup k' := by
  induction o with
  | nil =>
      by_cases h : k' = k
      · subst h; simp [setF, lookup_cons_self]
      · simp [setF, List.lookup, beq_eq_false_iff_ne.mpr h, h]
  | cons e rest ih =>
      obtain ⟨a, b⟩ := e
      simp only [setF]
      by_cases hak : a = k
      · subst hak
        by_cases h' : k' = a
        · subst h'; simp [lookup_cons_self]
        · simp [lookup_cons_ne _ _ _ _ h', h']
      · rw [if_neg hak]
        by_cases h' : k' = a
        · subst h'
          have : ¬k' = k := fun hh => hak (hh ▸ rfl)
          simp [lookup_cons_self, this]
        · rw [lookup_cons_ne _ _ _ _ h', lookup_cons_ne _ _ _ _ h', ih]

theorem getF_setF (o : Obj) (k k' : String) (v : JsVal) :
    getF (setF o k v) k' = if k' = k then v else getF o k' := by
  simp only [getF, lookup_setF]
  by_cases h : k' = k <;> simp [h]

theorem hasF_setF (o : Obj) (k k' : String) (v : JsVal) :
    hasF (setF o k v) k' = if k' = k then true else hasF o k' := by
  simp only [hasF, lookup_setF]
  by_cases h : k' = k <;> simp [h]

theorem lookup_delF (o : Obj) (k k' : String) :
    (delF o k).lookup k' = if k' = k then none else o.lookup k' := by
  induction o with
  | nil => simp [delF, List.lookup]
  | cons e rest ih =>
      obtain ⟨a, b⟩ := e
      by_cases hak : a = k
      · subst hak
        have : delF ((a, b) :: rest) a = delF rest a := by simp [delF]
        rw [this, ih]
        by_cases h' : k' = a
        · simp [h']
        · simp [h', lookup_cons_ne _ _ _ _ h']
      · have : delF ((a, b) :: rest) k = (a, b) :: delF rest k := by
          simp [delF, hak]
        rw [this]
        by_cases h' : k' = a
        · subst h'
          have hkk : ¬k' = k := fun hh => hak (hh ▸ rfl)
          simp [lookup_cons_self, hkk]
        · rw [lookup_cons_ne _ _ _ _ h', lookup_cons_ne _ _ _ _ h', ih]

theorem getF_delF (o : Obj) (k k' : String) :
    getF (delF o k) k' = if k' = k then .undefined else getF o k' := by
  simp only [getF, lookup_delF]
  by_cases h : k' = k <;> simp [h]

theorem hasF_delF (o : Obj) (k k' : String) :
    hasF (delF o k) k' = if k' = k then false else hasF o k' := by
  simp only [hasF, lookup_delF]
  by_cases h : k' = k <;> simp [h]

theorem lookup_append_obj (l₁ l₂ : Obj) (k : String) :
    (l₁ ++ l₂).lookup k = ((l₁.lookup k).or (l₂.lookup k)) := by
  induction l₁ with
  | nil => simp [List.lookup]
  | cons e rest ih =>
      obtain ⟨a, b⟩ := e
      by_cases h : k = a
      · subst h; simp [lookup_cons_self]
      · simp only [List.cons_append, lookup_cons_ne _ _ _ _ h, ih]

theorem lookup_map_override (p u : Obj) (k : String) :
    (p.map (fun e => (e.1, if hasF u e.1 then getF u e.1 else e.2))).lookup k
      = (p.lookup k).map (fun v => if hasF u k then getF u k else v) := by
  induction p with
  | nil => simp [List.lookup]
  | cons e rest ih =>
      obtain ⟨a, b⟩ := e
      by_cases h : k = a
      · subst h; simp [lookup_cons_self]
      · simp only [List.map_cons, lookup_cons_ne _ _ _ _ h, ih]

theorem lookup_filter_keys (u : Obj) (pr : String → Bool) (k : String) :
    (u.filter (fun e => pr e.1)).lookup k
      = if pr k then u.lookup k else none := by
  induction u with
  | nil => simp [List.lookup]
  | cons e rest ih =>
      obtain ⟨a, b⟩ := e
      by_cases hpa : pr a
      · have : ((a, b) :: rest).filter (fun e => pr e.1) =
            (a, b) :: rest.filter (fun e => pr e.1) := by simp [List.filter, hpa]
        rw [this]
        by_cases h : k = a
        · subst h; simp [lookup_cons_self, hpa]
        · rw [lookup_cons_ne _ _ _ _ h, lookup_cons_ne _ _ _ _ h, ih]
      · have : ((a, b) :: rest).filter (fun e => pr e.1) =
            rest.filter (fun e => pr e.1) := by
          simp [List.filter, hpa]
        rw [this, ih]
        by_cases h : k = a
        · subst h
          simp [hpa, lookup_cons_self]
        · rw [lookup_cons_ne _ _ _ _ h]

theorem lookup_mergeObj (p u : Obj) (k : String) :
    (mergeObj p u).lookup k =
      ((p.lookup k).map (fun v => if hasF u k then getF u k else v)).or
        (if hasF p k then none else u.lookup k) := by
  rw [mergeObj, lookup_append_obj, lookup_map_override,
    lookup_filter_keys u (fun a => ! hasF p a) k]
  cases hpk : hasF p k <;> simp [hpk]

theorem getF_mergeObj_of_hasF (p u : Obj) (k : String) (h : hasF u k = true) :
    getF (mergeObj p u) k = getF u k := by
  have hm := lookup_mergeObj p u k
  simp only [getF]
  rw [hm]
  cases hp : p.lookup k with
  | some v => simp [h, getF]
  | none =>
      have hpk : hasF p k = false := by simp [hasF, hp]
      simp [hpk]

theorem getF_mergeObj_of_not_hasF (p u : Obj) (k : String) (h : hasF u k = false) :
    getF (mergeObj p u) k = getF p k := by
  have hm := lookup_mergeObj p u k
  have hu : u.lookup k = none := by
    cases hul : u.lookup k with
    | none => rfl
    | some v => rw [hasF, hul] at h; exact absurd h (by simp)
  simp only [getF]
  rw [hm]
  cases hp : p.lookup k with
  | some v => simp [h]
  | none =>
      have hpk : hasF p k = false := by simp [hasF, hp]
      simp [hpk, hu]

theorem hasF_mergeObj (p u : Obj) (k : String) :
    hasF (mergeObj p u) k = (hasF p k || hasF u k) := by
  have hm := lookup_mergeObj p u k
  by_cases hpk : hasF p k = true
  · obtain ⟨v, hv⟩ := Option.isSome_iff_exists.mp
      (show (p.lookup k).isSome = true from hpk)
    simp only [hasF]
    rw [hm]
    simp [hasF, hv]
  · have hp : p.lookup k = none := by
      cases hl : p.lookup k with
      | none => rfl
      | some v => exact absurd (by simp [hasF, hl]) hpk
    simp only [hasF]
    rw [hm]
    simp [hasF, hp]

/-! ## Stage lemmas for `create` -/

theorem exceptBind_ok {α β : Type} (x : Except String α) (f : α → Except String β)
    (r : β) (h : x.bind f = .ok r) :
    ∃ w, x = .ok w ∧ f w = .ok r := by
  cases hx : x with
  | error msg =>
      rw [hx] at h
      exact absurd h (by simp [Except.bind])
  | ok w =>
      rw [hx] at h
      exact ⟨w, rfl, by simpa [Except.bind] using h⟩

theorem okInj {α : Type} (a b : α) (h : (Except.ok a : Except String α) = .ok b) :
    a = b := by
  cases h; rfl

theorem createCore_id (entity freshId : String) (item : Obj) :
    getF (createCore entity freshId item) "id" = .str freshId := by
  unfold createCore
  split <;> split <;> simp [getF_setF, getF_delF]

theorem createCore_slug (entity freshId : String) (item : Obj) :
    getF (createCore entity freshId item) "slug" =
      .str (slugify (jsOr (getF item "name") (jsOr (getF item "title") (.str "item")))) := by
  unfold createCore
  split <;> split <;> simp [getF_setF, getF_delF]

theorem createCore_disc (entity freshId : String) (item : Obj) :
    getF (createCore entity freshId item) "discountPercentage" =
      (if (getF item "discountPercentage").truthy then
        .num (parseFloatOr0 (getF item "discountPercentage"))
      else getF item "discountPercentage") := by
  unfold createCore
  split <;> split <;> simp_all [getF_setF, getF_delF]

theorem createBlogStep_getF (entity nowDate : String) (item n m : Obj)
    (h : createBlogStep entity nowDate item n = .ok m) (k : String)
    (h1 : k ≠ "date") (h2 : k ≠ "readTime") (h3 : k ≠ "category")
    (h4 : k ≠ "excerpt") :
    getF m k = getF n k ∧ hasF m k = hasF n k := by
  simp only [createBlogStep] at h
  split at h
  · split at h
    · exact Except.noConfusion h
    · obtain rfl := okInj _ _ h
      simp [getF_setF, hasF_setF, h1, h2, h3, h4]
  · obtain rfl := okInj _ _ h
    exact ⟨rfl, rfl⟩

theorem createArraysStep_getF (item n : Obj) (k : String)
    (h1 : k ≠ "keywords") (h2 : k ≠ "images") :
    getF (createArraysStep item n) k = getF n k ∧
    hasF (createArraysStep item n) k = hasF n k := by
  simp only [createArraysStep]
  simp [getF_setF, hasF_setF, h1, h2]

theorem variantsSync_getF (m0 : Obj) (variants : JsVal) (m : Obj)
    (h : variantsSync m0 variants = .ok m) (k : String)
    (h2 : k ≠ "variants") (h3 : k ≠ "price") :
    getF m k = getF m0 k ∧ hasF m k = hasF m0 k := by
  simp only [variantsSync] at h
  split at h
  · split at h
    · exact Except.noConfusion h
    · obtain rfl := okInj _ _ h
      simp [getF_setF, hasF_setF, h2, h3]
  · obtain rfl := okInj _ _ h
    simp [getF_setF, hasF_setF, h2]

theorem createConsumablesStep_getF (entity : String) (item n m : Obj)
    (hcs : createConsumablesStep entity item n = .ok m) (k : String)
    (h1 : k ≠ "cupping_notes") (h2 : k ≠ "variants") (h3 : k ≠ "price") :
    getF m k = getF n k ∧ hasF m k = hasF n k := by
  simp only [createConsumablesStep] at hcs
  split at hcs
  · split at hcs
    · split at hcs
      · split at hcs
        · exact Except.noConfusion hcs
        · have hv := variantsSync_getF _ _ _ hcs k h2 h3
          simpa [getF_setF, hasF_setF, h1] using hv
      · have hv := variantsSync_getF _ _ _ hcs k h2 h3
        simpa [getF_setF, hasF_setF, h1] using hv
    · obtain rfl := okInj _ _ hcs
      simp [getF_setF, hasF_setF, h1]
  · obtain rfl := okInj _ _ hcs
    exact ⟨rfl, rfl⟩

theorem createMachinesStep_getF (entity : String) (item n m : Obj)
    (h : createMachinesStep entity item n = .ok m) (k : String)
    (h1 : k ≠ "specifications") (h2 : k ≠ "features") :
    getF m k = getF n k ∧ hasF m k = hasF n k := by
  simp only [createMachinesStep] at h
  split at h
  · split at h
    · exact Except.noConfusion h
    · split at h
      · exact Except.noConfusion h
      · obtain rfl := okInj _ _ h
        simp [getF_setF, hasF_setF, h1, h2]
  · obtain rfl := okInj _ _ h
    exact ⟨rfl, rfl⟩

theorem createOrdersStep_getF (entity nowIso : String) (item n m : Obj)
    (h : createOrdersStep entity nowIso item n = .ok m) (k : String)
    (q1 : k ≠ "createdAt") (q2 : k ≠ "status") (q3 : k ≠ "items")
    (q4 : k ≠ "totalAmount") (q5 : k ≠ "isPaid") (q6 : k ≠ "slug")
    (q7 : k ≠ "keywords") (q8 : k ≠ "images") (q9 : k ≠ "isFeatured") :
    getF m k = getF n k ∧ hasF m k = hasF n k := by
  simp only [createOrdersStep] at h
  split at h
  · split at h
    · exact Except.noConfusion h
    · obtain rfl := okInj _ _ h
      simp [getF_setF, hasF_setF, getF_delF, hasF_delF,
        q1, q2, q3, q4, q5, q6, q7, q8, q9]
  · obtain rfl := okInj _ _ h
    exact ⟨rfl, rfl⟩

theorem createOrdersStep_strips (nowIso : String) (item n m : Obj)
    (h : createOrdersStep "orders" nowIso item n = .ok m) :
    hasF m "slug" = false ∧ hasF m "keywords" = false ∧
    hasF m "images" = false ∧ hasF m "isFeatured" = false ∧
    getF m "slug" = .undefined := by
  simp only [createOrdersStep, if_pos] at h
  split at h
  · exact Except.noConfusion h
  · obtain rfl := okInj _ _ h
    simp [getF_delF, hasF_delF]

theorem createCouponsStep_getF (entity : String) (item n m : Obj)
    (h : createCouponsStep entity item n = .ok m) (k : String)
    (r1 : k ≠ "isActive") (r2 : k ≠ "value") (r3 : k ≠ "maxUses")
    (r4 : k ≠ "maxDiscount") (r5 : k ≠ "currentUses") (r6 : k ≠ "expiryDate")
    (r7 : k ≠ "type") (r8 : k ≠ "code") :
    getF m k = getF n k ∧ hasF m k = hasF n k := by
  simp only [createCouponsStep] at h
  split at h
  · split at h
    · exact Except.noConfusion h
    · obtain rfl := okInj _ _ h
      simp [getF_setF, hasF_setF, r1, r2, r3, r4, r5, r6, r7, r8]
  · obtain rfl := okInj _ _ h
    exact ⟨rfl, rfl⟩

theorem createOrdersStep_skip (entity nowIso : String) (item n : Obj)
    (h : ¬ entity = "orders") : createOrdersStep entity nowIso item n = .ok n := by
  simp [createOrdersStep, h]

theorem createCouponsStep_skip (entity : String) (item n : Obj)
    (h : ¬ entity = "coupons") : createCouponsStep entity item n = .ok n := by
  simp [createCouponsStep, h]

/-- Master description of a successful `create`: the persisted
collection is the old one with the new document appended; the new
document's `id` is the minted id; its `slug` is the slug of
`item.name || item.title || "item"` (deleted again for `orders`); and
`discountPercentage` is coerced only when the supplied value is
truthy, and otherwise carried over verbatim from the input bag. -/
theorem create_ok_spec (entity freshId nowDate nowIso : String) (item : Obj)
    (data : List Obj) (d : Obj) (data' : List Obj)
    (h : create entity freshId nowDate nowIso item data = .ok (d, data')) :
    data' = data ++ [d] ∧
    getF d "id" = .str freshId ∧
    (entity = "orders" →
      hasF d "slug" = false ∧ hasF d "keywords" = false ∧
      hasF d "images" = false ∧ hasF d "isFeatured" = false ∧
      getF d "slug" = .undefined) ∧
    (entity ≠ "orders" →
      getF d "slug" = .str (slugify (jsOr (getF item "name")
        (jsOr (getF item "title") (.str "item"))))) ∧
    getF d "discountPercentage" =
      (if (getF item "discountPercentage").truthy then
        .num (parseFloatOr0 (getF item "discountPercentage"))
      else getF item "discountPercentage") := by
  simp only [create] at h
  obtain ⟨n4, hB, h⟩ := exceptBind_ok _ _ _ h
  obtain ⟨n7, hC, h⟩ := exceptBind_ok _ _ _ h
  obtain ⟨n8, hM, h⟩ := exceptBind_ok _ _ _ h
  obtain ⟨n9, hO, h⟩ := exceptBind_ok _ _ _ h
  obtain ⟨n10, hK, h⟩ := exceptBind_ok _ _ _ h
  have hpair := okInj _ _ h
  injection hpair with h1 h2
  subst h1
  subst h2
  refine ⟨rfl, ?_, ?_, ?_, ?_⟩
  · have c1 := (createBlogStep_getF _ _ _ _ _ hB "id"
      (by decide) (by simp) (by decide) (by simp)).1
    have c2 := (createArraysStep_getF item n4 "id" (by decide) (by simp)).1
    have c3 := (createConsumablesStep_getF _ _ _ _ hC "id"
      (by decide) (by simp) (by decide)).1
    have c4 := (createMachinesStep_getF _ _ _ _ hM "id" (by decide) (by simp)).1
    have c5 := (createOrdersStep_getF _ _ _ _ _ hO "id" (by decide) (by simp)
      (by decide) (by simp) (by decide) (by simp) (by decide) (by simp)
      (by decide)).1
    have c6 := (createCouponsStep_getF _ _ _ _ hK "id" (by decide) (by simp)
      (by decide) (by simp) (by decide) (by simp) (by decide) (by simp)).1
    rw [c6, c5, c4, c3, c2, c1, createCore_id]
  · intro he
    subst he
    have h9 : n9 = n10 := okInj _ _ ((createCouponsStep_skip _ item n9 (by decide)).symm.trans hK)
    subst h9
    obtain ⟨s1, s2, s3, s4, s5⟩ := createOrdersStep_strips _ item n8 _ hO
    exact ⟨s1, s2, s3, s4, s5⟩
  · intro hne
    have h8 : n8 = n9 := okInj _ _ ((createOrdersStep_skip _ _ item n8 hne).symm.trans hO)
    subst h8
    have c1 := (createBlogStep_getF _ _ _ _ _ hB "slug"
      (by decide) (by simp) (by decide) (by simp)).1
    have c2 := (createArraysStep_getF item n4 "slug" (by decide) (by simp)).1
    have c3 := (createConsumablesStep_getF _ _ _ _ hC "slug"
      (by decide) (by simp) (by decide)).1
    have c4 := (createMachinesStep_getF _ _ _ _ hM "slug" (by decide) (by simp)).1
    have c6 := (createCouponsStep_getF _ _ _ _ hK "slug" (by decide) (by simp)
      (by decide) (by simp) (by decide) (by simp) (by decide) (by simp)).1
    rw [c6, c4, c3, c2, c1, createCore_slug]
  · have c1 := (createBlogStep_getF _ _ _ _ _ hB "discountPercentage"
      (by decide) (by simp) (by decide) (by simp)).1
    have c2 := (createArraysStep_getF item n4 "discountPercentage"
      (by decide) (by simp)).1
    have c3 := (createConsumablesStep_getF _ _ _ _ hC "discountPercentage"
      (by decide) (by simp) (by decide)).1
    have c4 := (createMachinesStep_getF _ _ _ _ hM "discountPercentage"
      (by decide) (by simp)).1
    have c5 := (createOrdersStep_getF _ _ _ _ _ hO "discountPercentage" (by decide)
      (by simp) (by decide) (by simp) (by decide) (by simp) (by decide)
      (by simp) (by decide)).1
    have c6 := (createCouponsStep_getF _ _ _ _ hK "discountPercentage" (by decide)
      (by simp) (by decide) (by simp) (by decide) (by simp) (by decide)
      (by simp)).1
    rw [c6, c5, c4, c3, c2, c1, createCore_disc]

/-! ## Stage lemmas for `update` -/

theorem createBlogStep_skip (entity nowDate : String) (item n : Obj)
    (h : ¬ entity = "blogs") : createBlogStep entity nowDate item n = .ok n := by
  simp [createBlogStep, h]

theorem createConsumablesStep_skip (entity : String) (item n : Obj)
    (h : ¬ entity ∈ consumableEntities) :
    createConsumablesStep entity item n = .ok n := by
  simp [createConsumablesStep, h]

theorem createMachinesStep_skip (entity : String) (item n : Obj)
    (h : ¬ entity = "machines") : createMachinesStep entity item n = .ok n := by
  simp [createMachinesStep, h]

theorem parseFieldIfStr_getF (u : Obj) (key : String) (fb : JsVal) (k : String)
    (hk : k ≠ key) :
    getF (parseFieldIfStr u key fb) k = getF u k ∧
    hasF (parseFieldIfStr u key fb) k = hasF u k := by
  unfold parseFieldIfStr
  split
  · split
    · exact ⟨rfl, rfl⟩
    · simp [getF_setF, hasF_setF, hk]
  · exact ⟨rfl, rfl⟩

theorem updDynamicProps_getF (u : Obj) (k : String)
    (h1 : k ≠ "specifications") (h2 : k ≠ "features") :
    getF (updDynamicProps u) k = getF u k ∧
    hasF (updDynamicProps u) k = hasF u k := by
  unfold updDynamicProps
  have a := parseFieldIfStr_getF u "specifications" (.obj []) k h1
  have b := parseFieldIfStr_getF (parseFieldIfStr u "specifications" (.obj []))
    "features" (.obj []) k h2
  exact ⟨b.1.trans a.1, b.2.trans a.2⟩

theorem condSetF_getF (o : Obj) (key : String) (f : JsVal → JsVal) (k : String)
    (hk : k ≠ key) :
    getF (condSetF o key f) k = getF o k ∧
    hasF (condSetF o key f) k = hasF o k := by
  unfold condSetF
  split <;> simp [getF_setF, hasF_setF, hk]

theorem condDelF_getF (o : Obj) (key : String) (k : String) (hk : k ≠ key) :
    getF (condDelF o key) k = getF o k ∧
    hasF (condDelF o key) k = hasF o k := by
  unfold condDelF
  split <;> simp [getF_delF, hasF_delF, hk]

theorem updFlags_getF (entity : String) (u : Obj) (k : String)
    (h1 : k ≠ "isFeatured") (h2 : k ≠ "inStock") (h3 : k ≠ "discountPercentage") :
    getF (updFlags entity u) k = getF u k ∧
    hasF (updFlags entity u) k = hasF u k := by
  unfold updFlags
  by_cases hmem : entity ∈ productEntities
  · simp only [if_pos hmem]
    refine ⟨?_, ?_⟩
    · exact ((condSetF_getF _ "discountPercentage" _ k h3).1).trans
        (((condSetF_getF _ "inStock" _ k h2).1).trans
          ((condSetF_getF u "isFeatured" _ k h1).1))
    · exact ((condSetF_getF _ "discountPercentage" _ k h3).2).trans
        (((condSetF_getF _ "inStock" _ k h2).2).trans
          ((condSetF_getF u "isFeatured" _ k h1).2))
  · simp only [if_neg hmem]
    refine ⟨?_, ?_⟩
    · exact ((condSetF_getF _ "discountPercentage" _ k h3).1).trans
        (((condDelF_getF _ "inStock" k h2).1).trans
          ((condSetF_getF u "isFeatured" _ k h1).1))
    · exact ((condSetF_getF _ "discountPercentage" _ k h3).2).trans
        (((condDelF_getF _ "inStock" k h2).2).trans
          ((condSetF_getF u "isFeatured" _ k h1).2))

theorem updBlogStep_getF (entity : String) (u m : Obj)
    (h : updBlogStep entity u = .ok m) (k : String) (h1 : k ≠ "readTime") :
    getF m k = getF u k ∧ hasF m k = hasF u k := by
  simp only [updBlogStep] at h
  split at h
  · split at h
    · exact Except.noConfusion h
    · obtain rfl := okInj _ _ h
      simp [getF_setF, hasF_setF, h1]
  · obtain rfl := okInj _ _ h
    exact ⟨rfl, rfl⟩

theorem updListFields_getF (u : Obj) (k : String)
    (h1 : k ≠ "keywords") (h2 : k ≠ "cupping_notes") :
    getF (updListFields u) k = getF u k ∧
    hasF (updListFields u) k = hasF u k := by
  unfold updListFields
  exact ⟨((condSetF_getF _ "cupping_notes" _ k h2).1).trans
      ((condSetF_getF u "keywords" _ k h1).1),
    ((condSetF_getF _ "cupping_notes" _ k h2).2).trans
      ((condSetF_getF u "keywords" _ k h1).2)⟩

theorem updVariantsStep_getF (entity : String) (u : Obj) (k : String)
    (h1 : k ≠ "variants") (h2 : k ≠ "price") :
    getF (updVariantsStep entity u) k = getF u k ∧
    hasF (updVariantsStep entity u) k = hasF u k := by
  unfold updVariantsStep
  split
  · split
    · rename_i m hm
      split at hm
      · split at hm
        · exact Except.noConfusion hm
        · have hv := variantsSync_getF _ _ _ hm k h1 h2
          exact hv
      · have hv := variantsSync_getF _ _ _ hm k h1 h2
        exact hv
    · simp [getF_setF, hasF_setF, h1]
  · exact ⟨rfl, rfl⟩

theorem updItemsStep_getF (entity : String) (u : Obj) (k : String)
    (h1 : k ≠ "items") :
    getF (updItemsStep entity u) k = getF u k ∧
    hasF (updItemsStep entity u) k = hasF u k := by
  unfold updItemsStep
  split
  · exact parseFieldIfStr_getF u "items" (.arr []) k h1
  · exact ⟨rfl, rfl⟩

theorem updCouponsStep_getF (entity : String) (u m : Obj)
    (h : updCouponsStep entity u = .ok m) (k : String)
    (h1 : k ≠ "isActive") (h2 : k ≠ "value") (h3 : k ≠ "maxUses")
    (h4 : k ≠ "maxDiscount") (h5 : k ≠ "code") :
    getF m k = getF u k ∧ hasF m k = hasF u k := by
  have hc3 : getF (condSetF (condSetF (condSetF (condSetF u
        "isActive" (fun v => .bool (isTrueLike v)))
        "value" (fun v => .num (parseFloatOr0 v)))
        "maxUses" (fun v => .num ((parseIntOr0 v : Int) : Rat)))
        "maxDiscount" (fun v => .num (parseFloatOr0 v))) k = getF u k ∧
      hasF (condSetF (condSetF (condSetF (condSetF u
        "isActive" (fun v => .bool (isTrueLike v)))
        "value" (fun v => .num (parseFloatOr0 v)))
        "maxUses" (fun v => .num ((parseIntOr0 v : Int) : Rat)))
        "maxDiscount" (fun v => .num (parseFloatOr0 v))) k = hasF u k := by
    refine ⟨?_, ?_⟩
    · exact ((condSetF_getF _ "maxDiscount" _ k h4).1).trans
        (((condSetF_getF _ "maxUses" _ k h3).1).trans
          (((condSetF_getF _ "value" _ k h2).1).trans
            ((condSetF_getF u "isActive" _ k h1).1)))
    · exact ((condSetF_getF _ "maxDiscount" _ k h4).2).trans
        (((condSetF_getF _ "maxUses" _ k h3).2).trans
          (((condSetF_getF _ "value" _ k h2).2).trans
            ((condSetF_getF u "isActive" _ k h1).2)))
  simp only [updCouponsStep] at h
  split at h
  · split at h
    · split at h
      · exact Except.noConfusion h
      · obtain rfl := okInj _ _ h
        simp [getF_setF, hasF_setF, h5, hc3.1, hc3.2]
    · obtain rfl := okInj _ _ h
      exact hc3
  · obtain rfl := okInj _ _ h
    exact ⟨rfl, rfl⟩

/-! ## Composite lemmas for `update` -/

theorem updBlogStep_skip (entity : String) (u : Obj) (h : ¬ entity = "blogs") :
    updBlogStep entity u = .ok u := by
  simp [updBlogStep, h]

theorem updCouponsStep_skip (entity : String) (u : Obj) (h : ¬ entity = "coupons") :
    updCouponsStep entity u = .ok u := by
  simp [updCouponsStep, h]

/-- For an entity that is neither `blogs` nor `coupons`, no exception
can escape the update normalization: it is the pure composition of
the remaining stages. -/
theorem normUpdates_ok (entity : String) (u : Obj)
    (h1 : entity ≠ "blogs") (h2 : entity ≠ "coupons") :
    normUpdates entity u =
      .ok (updItemsStep entity (updVariantsStep entity (updListFields
        (updFlags entity (updDynamicProps u))))) := by
  unfold normUpdates
  rw [updBlogStep_skip _ _ h1]
  simp only [Except.bind]
  rw [updCouponsStep_skip _ _ h2]

/-- A key none of the update-normalization stages touch keeps its
value and presence from the raw bag. -/
theorem normUpdates_keeps (entity : String) (u u1 : Obj)
    (h : normUpdates entity u = .ok u1) (k : String)
    (k1 : k ≠ "specifications") (k2 : k ≠ "features") (k3 : k ≠ "isFeatured")
    (k4 : k ≠ "inStock") (k5 : k ≠ "discountPercentage") (k6 : k ≠ "readTime")
    (k7 : k ≠ "keywords") (k8 : k ≠ "cupping_notes") (k9 : k ≠ "variants")
    (k10 : k ≠ "price") (k11 : k ≠ "items") (k12 : k ≠ "isActive")
    (k13 : k ≠ "value") (k14 : k ≠ "maxUses") (k15 : k ≠ "maxDiscount")
    (k16 : k ≠ "code") :
    getF u1 k = getF u k ∧ hasF u1 k = hasF u k := by
  unfold normUpdates at h
  obtain ⟨u6, hB, hK⟩ := exceptBind_ok _ _ _ h
  have lB := updBlogStep_getF _ _ _ hB k k6
  have lD := updDynamicProps_getF u k k1 k2
  have lF := updFlags_getF entity (updDynamicProps u) k k3 k4 k5
  have lL := updListFields_getF u6 k k7 k8
  have lV := updVariantsStep_getF entity (updListFields u6) k k9 k10
  have lI := updItemsStep_getF entity (updVariantsStep entity (updListFields u6)) k k11
  have lK := updCouponsStep_getF _ _ _ hK k k12 k13 k14 k15 k16
  constructor
  · exact lK.1.trans (lI.1.trans (lV.1.trans (lL.1.trans
      (lB.1.trans (lF.1.trans lD.1)))))
  · exact lK.2.trans (lI.2.trans (lV.2.trans (lL.2.trans
      (lB.2.trans (lF.2.trans lD.2)))))

/-- Master description of a successful `update` at a found index: the
merged document is `{ ...prev, ...normalizedUpdates }` and the
persisted collection replaces index `i` with it. -/
theorem update_ok_spec (entity : String) (identifier : JsVal) (u : Obj)
    (data : List Obj) (i : Nat) (prev u1 d : Obj) (data' : List Obj)
    (hidx : data.findIdx? (fun it => matchesIdent it identifier) = some i)
    (hprev : data.get? i = some prev)
    (hnorm : normUpdates entity u = .ok u1)
    (h : update entity identifier u data = .ok (some (d, data'))) :
    d = mergeObj prev u1 ∧ data' = data.set i d := by
  simp only [update] at h
  rw [hidx] at h
  obtain ⟨u2, hnorm2, h2⟩ := exceptBind_ok _ _ _ h
  have hu : u1 = u2 := by rw [hnorm] at hnorm2; exact okInj _ _ hnorm2
  subst hu
  rw [hprev] at h2
  have h3 := okInj _ _ h2
  injection h3 with h4
  injection h4 with hd hdata
  exact ⟨hd.symm, by rw [← hdata, hd]⟩

/-! ## Claims -/

/-- C4 (amended).  For every entity, when the supplied
`discountPercentage` is truthy, the created document stores
`parseFloat` of it (0 when unparseable); when it is falsy or absent,
the field is carried over from the input bag unchanged — in
particular an absent field stays absent rather than becoming 0. -/
theorem C4_discount_coercion (entity freshId nowDate nowIso : String) (item : Obj)
    (data : List Obj) (d : Obj) (data' : List Obj)
    (h : create entity freshId nowDate nowIso item data = .ok (d, data')) :
    ((getF item "discountPercentage").truthy = true →
      getF d "discountPercentage" = .num (parseFloatOr0 (getF item "discountPercentage"))) ∧
    ((getF item "discountPercentage").truthy = false →
      getF d "discountPercentage" = getF item "discountPercentage") := by
  have hs := (create_ok_spec _ _ _ _ _ _ _ _ h).2.2.2.2
  constructor <;> intro ht <;> rw [hs, ht] <;> simp

/-- C4 witness: a truthy unparseable `discountPercentage` (`"abc"`)
is stored as the number 0. -/
theorem C4_discount_coercion_witness :
    (JsVal.str "abc").truthy = true ∧
    create "beans" "i0" "d" "t" [("discountPercentage", .str "abc")] [] =
      .ok ([("discountPercentage", (.num 0)), ("id", (.str "i0")), ("slug", (.str "item")),
        ("isFeatured", (.bool false)), ("inStock", (.bool false)), ("keywords", (.arr [])),
        ("images", (.arr [])), ("cupping_notes", (.arr []))],
        [[("discountPercentage", (.num 0)), ("id", (.str "i0")), ("slug", (.str "item")),
        ("isFeatured", (.bool false)), ("inStock", (.bool false)), ("keywords", (.arr [])),
        ("images", (.arr [])), ("cupping_notes", (.arr []))]]) ∧
    getF [("discountPercentage", (.num 0)), ("id", (.str "i0")), ("slug", (.str "item")),
        ("isFeatured", (.bool false)), ("inStock", (.bool false)), ("keywords", (.arr [])),
        ("images", (.arr [])), ("cupping_notes", (.arr []))] "discountPercentage" =
      .num (parseFloatOr0 (.str "abc")) :=
  ⟨rfl, rfl,
    (C4_discount_coercion "beans" "i0" "d" "t"
      [("discountPercentage", .str "abc")] [] _ _ rfl).1 rfl⟩

/-- C4 counterexample: creating a `beans` document with no
`discountPercentage` leaves the field absent (`undefined`), not equal
to 0 as the claim states for the absent case. -/
theorem C4_counterexample :
    (create "beans" "i0" "d" "t" [] []).map (fun r => getF r.1 "discountPercentage") =
      .ok .undefined ∧
    JsVal.undefined ≠ JsVal.num 0 :=
  ⟨rfl, fun hcon => JsVal.noConfusion hcon⟩

/-- C8 (confirmed).  A document created for `orders` never carries the
keys `slug`, `keywords`, `images` or `isFeatured`, whatever the input
bag supplied. -/
theorem C8_orders_strip (freshId nowDate nowIso : String) (item : Obj)
    (data : List Obj) (d : Obj) (data' : List Obj)
    (h : create "orders" freshId nowDate nowIso item data = .ok (d, data')) :
    hasF d "slug" = false ∧ hasF d "keywords" = false ∧
    hasF d "images" = false ∧ hasF d "isFeatured" = false := by
  obtain ⟨s1, s2, s3, s4, -⟩ := (create_ok_spec _ _ _ _ _ _ _ _ h).2.2.1 rfl
  exact ⟨s1, s2, s3, s4⟩

/-- C8 witness: an orders create whose input supplies all four
stripped fields. -/
theorem C8_orders_strip_witness :
    create "orders" "i0" "d" "t" [("slug", .str "evil"), ("keywords", .str "a,b"),
      ("images", .arr [.str "x.png"]), ("isFeatured", .str "true")] [] =
      .ok ([("id", (.str "i0")), ("createdAt", (.str "t")), ("status", (.str "Pending")),
        ("items", (.arr [])), ("totalAmount", (.num 0)), ("isPaid", (.bool false))],
        [[("id", (.str "i0")), ("createdAt", (.str "t")), ("status", (.str "Pending")),
        ("items", (.arr [])), ("totalAmount", (.num 0)), ("isPaid", (.bool false))]]) ∧
    (hasF [("id", (.str "i0")), ("createdAt", (.str "t")), ("status", (.str "Pending")),
        ("items", (.arr [])), ("totalAmount", (.num 0)), ("isPaid", (.bool false))] "slug" = false ∧
     hasF [("id", (.str "i0")), ("createdAt", (.str "t")), ("status", (.str "Pending")),
        ("items", (.arr [])), ("totalAmount", (.num 0)), ("isPaid", (.bool false))] "keywords" = false ∧
     hasF [("id", (.str "i0")), ("createdAt", (.str "t")), ("status", (.str "Pending")),
        ("items", (.arr [])), ("totalAmount", (.num 0)), ("isPaid", (.bool false))] "images" = false ∧
     hasF [("id", (.str "i0")), ("createdAt", (.str "t")), ("status", (.str "Pending")),
        ("items", (.arr [])), ("totalAmount", (.num 0)), ("isPaid", (.bool false))] "isFeatured" = false) :=
  ⟨rfl, C8_orders_strip "i0" "d" "t"
    [("slug", .str "evil"), ("keywords", .str "a,b"),
      ("images", .arr [.str "x.png"]), ("isFeatured", .str "true")] [] _ _ rfl⟩

/-- C9 (confirmed).  A document created for `coupons` stores
`currentUses = 0` regardless of the input, and `code` equal to the
(ASCII) upper-casing of the input code, the empty string when the code
is absent. -/
theorem C9_coupons_create (freshId nowDate nowIso : String) (item : Obj)
    (data : List Obj) (d : Obj) (data' : List Obj)
    (h : create "coupons" freshId nowDate nowIso item data = .ok (d, data')) :
    getF d "currentUses" = .num 0 ∧
    (∀ s : String, getF item "code" = .str s →
      getF d "code" = .str (String.mk (s.toList.map asciiUpper))) ∧
    (getF item "code" = .undefined → getF d "code" = .str "") := by
  simp only [create] at h
  obtain ⟨n4, hB, h⟩ := exceptBind_ok _ _ _ h
  obtain ⟨n7, hC, h⟩ := exceptBind_ok _ _ _ h
  obtain ⟨n8, hM, h⟩ := exceptBind_ok _ _ _ h
  obtain ⟨n9, hO, h⟩ := exceptBind_ok _ _ _ h
  obtain ⟨n10, hK, h⟩ := exceptBind_ok _ _ _ h
  have hpair := okInj _ _ h
  injection hpair with h1 h2
  subst h1
  subst h2
  simp only [createCouponsStep, if_pos] at hK
  split at hK
  · exact Except.noConfusion hK
  · rename_i codeV hcode
    obtain rfl := okInj _ _ hK
    refine ⟨?_, ?_, ?_⟩
    · simp [getF_setF]
    · intro s hsv
      rw [hsv] at hcode
      by_cases hse : s = ""
      · subst hse
        simp only [jsOr, JsVal.truthy, jsToUpperCase] at hcode
        simp at hcode
        subst hcode
        simp [getF_setF]
      · have : jsOr (.str s) (.str "") = .str s := by
          simp [jsOr, JsVal.truthy, hse]
        rw [this] at hcode
        simp only [jsToUpperCase] at hcode
        have hcv := okInj _ _ hcode
        subst hcv
        simp [getF_setF]
    · intro hsv
      rw [hsv] at hcode
      simp only [jsOr, JsVal.truthy, jsToUpperCase] at hcode
      simp at hcode
      subst hcode
      simp [getF_setF]

/-- C9 witness: `code = "save20"` becomes `"SAVE20"` and an input
`currentUses = 50` is ignored in favour of 0. -/
theorem C9_coupons_create_witness :
    create "coupons" "i0" "d" "t" [("code", .str "save20"), ("currentUses", .num 50)] [] =
      .ok ([("code", (.str "SAVE20")), ("currentUses", (.num 0)), ("id", (.str "i0")),
        ("slug", (.str "item")), ("isFeatured", (.bool false)), ("keywords", (.arr [])),
        ("images", (.arr [])), ("isActive", (.bool false)), ("value", (.num 0)),
        ("maxUses", (.num 0)), ("maxDiscount", (.num 0)), ("expiryDate", (.str "")),
        ("type", (.str "percentage"))],
        [[("code", (.str "SAVE20")), ("currentUses", (.num 0)), ("id", (.str "i0")),
        ("slug", (.str "item")), ("isFeatured", (.bool false)), ("keywords", (.arr [])),
        ("images", (.arr [])), ("isActive", (.bool false)), ("value", (.num 0)),
        ("maxUses", (.num 0)), ("maxDiscount", (.num 0)), ("expiryDate", (.str "")),
        ("type", (.str "percentage"))]]) ∧
    getF [("code", (.str "SAVE20")), ("currentUses", (.num 0)), ("id", (.str "i0")),
        ("slug", (.str "item")), ("isFeatured", (.bool false)), ("keywords", (.arr [])),
        ("images", (.arr [])), ("isActive", (.bool false)), ("value", (.num 0)),
        ("maxUses", (.num 0)), ("maxDiscount", (.num 0)), ("expiryDate", (.str "")),
        ("type", (.str "percentage"))] "currentUses" = .num 0 ∧
    getF [("code", (.str "SAVE20")), ("currentUses", (.num 0)), ("id", (.str "i0")),
        ("slug", (.str "item")), ("isFeatured", (.bool false)), ("keywords", (.arr [])),
        ("images", (.arr [])), ("isActive", (.bool false)), ("value", (.num 0)),
        ("maxUses", (.num 0)), ("maxDiscount", (.num 0)), ("expiryDate", (.str "")),
        ("type", (.str "percentage"))] "code" =
      .str (String.mk ("save20".toList.map asciiUpper)) :=
  ⟨rfl,
    (C9_coupons_create "i0" "d" "t"
      [("code", .str "save20"), ("currentUses", .num 50)] [] _ _ rfl).1,
    (C9_coupons_create "i0" "d" "t"
      [("code", .str "save20"), ("currentUses", .num 50)] [] _ _ rfl).2.1 "save20" rfl⟩

/-- C10 (amended).  For every entity except `orders` (whose create
deletes `slug` again), a create whose `name` and `title` are both
absent or falsy stores the slug `"item"`. -/
theorem C10_slug_fallback (entity freshId nowDate nowIso : String) (item : Obj)
    (data : List Obj) (d : Obj) (data' : List Obj)
    (hne : entity ≠ "orders")
    (hname : (getF item "name").truthy = false)
    (htitle : (getF item "title").truthy = false)
    (h : create entity freshId nowDate nowIso item data = .ok (d, data')) :
    getF d "slug" = .str "item" := by
  have hs := (create_ok_spec _ _ _ _ _ _ _ _ h).2.2.2.1 hne
  rw [hs]
  have hor : jsOr (getF item "name") (jsOr (getF item "title") (.str "item")) = .str "item" := by
    simp [jsOr, hname, htitle]
  rw [hor]
  have hslug : slugify (.str "item") = "item" := by decide
  rw [hslug]

/-- C10 witness: `name = ""` (falsy but present) and no `title` still
give slug `"item"` on a non-orders entity. -/
theorem C10_slug_fallback_witness :
    create "beans" "i0" "d" "t" [("name", .str "")] [] =
      .ok ([("name", (.str "")), ("id", (.str "i0")), ("slug", (.str "item")),
        ("isFeatured", (.bool false)), ("inStock", (.bool false)), ("keywords", (.arr [])),
        ("images", (.arr [])), ("cupping_notes", (.arr []))],
        [[("name", (.str "")), ("id", (.str "i0")), ("slug", (.str "item")),
        ("isFeatured", (.bool false)), ("inStock", (.bool false)), ("keywords", (.arr [])),
        ("images", (.arr [])), ("cupping_notes", (.arr []))]]) ∧
    getF [("name", (.str "")), ("id", (.str "i0")), ("slug", (.str "item")),
        ("isFeatured", (.bool false)), ("inStock", (.bool false)), ("keywords", (.arr [])),
        ("images", (.arr [])), ("cupping_notes", (.arr []))] "slug" = .str "item" :=
  ⟨rfl, C10_slug_fallback "beans" "i0" "d" "t" [("name", .str "")] []
    _ _ (by decide) rfl rfl rfl⟩

/-- C10 counterexample: for the `orders` entity the claim fails — the
created document has no `slug` key at all (the generic slug is deleted
again), so its slug is not the string `"item"`. -/
theorem C10_counterexample :
    (create "orders" "i0" "d" "t" [] []).map (fun r => getF r.1 "slug") = .ok .undefined ∧
    JsVal.undefined ≠ JsVal.str "item" :=
  ⟨rfl, fun hcon => JsVal.noConfusion hcon⟩

/-- C2 (amended).  Create-then-lookup round-trip: provided no
previously stored document already matches the new document's `id` or
`slug` (the store does not enforce such uniqueness), `getByIdOrSlug`
on the persisted collection finds the created document both by its
`id` and by its `slug` value (for `orders`, the slug read is
`undefined`, which still matches only the new document under the
freshness hypothesis). -/
theorem C2_create_lookup (entity freshId nowDate nowIso : String) (item : Obj)
    (data : List Obj) (d : Obj) (data' : List Obj)
    (h : create entity freshId nowDate nowIso item data = .ok (d, data'))
    (hfresh : ∀ p ∈ data, matchesIdent p (getF d "id") = false ∧
      matchesIdent p (getF d "slug") = false) :
    getByIdOrSlug data' (getF d "id") = some d ∧
    getByIdOrSlug data' (getF d "slug") = some d := by
  obtain ⟨hdata, hid, hord, hnord, _⟩ := create_ok_spec _ _ _ _ _ _ _ _ h
  subst hdata
  have hnone1 : data.find? (fun it => matchesIdent it (getF d "id")) = none :=
    List.find?_eq_none.mpr (fun p hp => by simp [(hfresh p hp).1])
  have hnone2 : data.find? (fun it => matchesIdent it (getF d "slug")) = none :=
    List.find?_eq_none.mpr (fun p hp => by simp [(hfresh p hp).2])
  have hmid : matchesIdent d (getF d "id") = true := by
    unfold matchesIdent
    rw [hid]
    simp [JsVal.seq]
  have hmslug : matchesIdent d (getF d "slug") = true := by
    by_cases ho : entity = "orders"
    · have hu := (hord ho).2.2.2.2
      unfold matchesIdent
      rw [hu]
      simp [JsVal.seq]
    · have hu := hnord ho
      unfold matchesIdent
      rw [hu]
      simp [JsVal.seq]
  unfold getByIdOrSlug findByIdOrSlug
  constructor
  · rw [List.find?_append, hnone1]
    simp [List.find?, hmid]
  · rw [List.find?_append, hnone2]
    simp [List.find?, hmslug]

/-- C2 witness: a `syrups` create over a store holding one unrelated
document; lookup by the new id and by the new slug both return the
created document. -/
theorem C2_create_lookup_witness :
    create "syrups" "newid123" "d" "t" [("name", .str "Vanilla Syrup")]
      [[("id", .str "otherid0"), ("slug", .str "other")]] =
      .ok ([("name", (.str "Vanilla Syrup")), ("id", (.str "newid123")),
        ("slug", (.str "vanilla-syrup")), ("isFeatured", (.bool false)),
        ("inStock", (.bool false)), ("keywords", (.arr [])), ("images", (.arr [])),
        ("cupping_notes", (.arr []))],
        [[("id", .str "otherid0"), ("slug", .str "other")]] ++
          [[("name", (.str "Vanilla Syrup")), ("id", (.str "newid123")),
        ("slug", (.str "vanilla-syrup")), ("isFeatured", (.bool false)),
        ("inStock", (.bool false)), ("keywords", (.arr [])), ("images", (.arr [])),
        ("cupping_notes", (.arr []))]]) ∧
    (getByIdOrSlug ([[("id", .str "otherid0"), ("slug", .str "other")]] ++
          [[("name", (.str "Vanilla Syrup")), ("id", (.str "newid123")),
        ("slug", (.str "vanilla-syrup")), ("isFeatured", (.bool false)),
        ("inStock", (.bool false)), ("keywords", (.arr [])), ("images", (.arr [])),
        ("cupping_notes", (.arr []))]])
        (getF [("name", (.str "Vanilla Syrup")), ("id", (.str "newid123")),
        ("slug", (.str "vanilla-syrup")), ("isFeatured", (.bool false)),
        ("inStock", (.bool false)), ("keywords", (.arr [])), ("images", (.arr [])),
        ("cupping_notes", (.arr []))] "id") =
      some [("name", (.str "Vanilla Syrup")), ("id", (.str "newid123")),
        ("slug", (.str "vanilla-syrup")), ("isFeatured", (.bool false)),
        ("inStock", (.bool false)), ("keywords", (.arr [])), ("images", (.arr [])),
        ("cupping_notes", (.arr []))] ∧
     getByIdOrSlug ([[("id", .str "otherid0"), ("slug", .str "other")]] ++
          [[("name", (.str "Vanilla Syrup")), ("id", (.str "newid123")),
        ("slug", (.str "vanilla-syrup")), ("isFeatured", (.bool false)),
        ("inStock", (.bool false)), ("keywords", (.arr [])), ("images", (.arr [])),
        ("cupping_notes", (.arr []))]])
        (getF [("name", (.str "Vanilla Syrup")), ("id", (.str "newid123")),
        ("slug", (.str "vanilla-syrup")), ("isFeatured", (.bool false)),
        ("inStock", (.bool false)), ("keywords", (.arr [])), ("images", (.arr [])),
        ("cupping_notes", (.arr []))] "slug") =
      some [("name", (.str "Vanilla Syrup")), ("id", (.str "newid123")),
        ("slug", (.str "vanilla-syrup")), ("isFeatured", (.bool false)),
        ("inStock", (.bool false)), ("keywords", (.arr [])), ("images", (.arr [])),
        ("cupping_notes", (.arr []))]) :=
  ⟨rfl, C2_create_lookup "syrups" "newid123" "d" "t" [("name", .str "Vanilla Syrup")]
    [[("id", .str "otherid0"), ("slug", .str "other")]] _ _ rfl (by decide)⟩

/-- C2 counterexample: when an older document already carries the slug
the new document receives (`"item"`), lookup by the returned slug
yields the older document (id `"zzzzzzzz"`), not the created one (id
`"abc12345"`), so the claim fails without a freshness assumption. -/
theorem C2_counterexample :
    ((create "beans" "abc12345" "d" "t" []
        [[("id", .str "zzzzzzzz"), ("slug", .str "item")]]).map
      (fun r => (getByIdOrSlug r.2 (getF r.1 "slug")).map (fun o => getF o "id")))
      = .ok (some (.str "zzzzzzzz")) ∧
    ((create "beans" "abc12345" "d" "t" []
        [[("id", .str "zzzzzzzz"), ("slug", .str "item")]]).map
      (fun r => getF r.1 "id")) = .ok (.str "abc12345") ∧
    JsVal.str "zzzzzzzz" ≠ JsVal.str "abc12345" :=
  ⟨rfl, rfl, by
    intro hcon
    injection hcon with h'
    exact absurd h' (by decide)⟩

/-- The consumables create stage throws the `JSON.parse` error when
`variants` is a truthy string that does not parse. -/
theorem consumablesStep_err (entity : String) (he : entity ∈ consumableEntities)
    (item n : Obj) (s : String) (hv : getF item "variants" = .str s)
    (hne : s ≠ "") (hbad : jsonParse s = none) :
    createConsumablesStep entity item n = .error jsonErr := by
  simp only [createConsumablesStep, if_pos he]
  have ht : (getF item "variants").truthy = true := by
    rw [hv]; simp [JsVal.truthy, hne]
  rw [if_pos ht, hv]
  show (match jsonParseE s with
    | .error e => .error e
    | .ok variants =>
        variantsSync (setF n "cupping_notes" (normalizeArray (getF item "cupping_notes"))) variants
    : Except String Obj) = .error jsonErr
  rw [show jsonParseE s = .error jsonErr by simp [jsonParseE, hbad]]

/-- C6 (amended).  For `beans`/`syrups`/`sauces`, a create whose
`variants` is a truthy (non-empty) string that is not valid JSON
throws the `JSON.parse` error; since the collection write happens
after normalization, nothing is persisted. -/
theorem C6_malformed_variants_create (entity : String)
    (he : entity ∈ consumableEntities)
    (freshId nowDate nowIso : String) (item : Obj) (data : List Obj) (s : String)
    (hv : getF item "variants" = .str s) (hne : s ≠ "")
    (hbad : jsonParse s = none) :
    create entity freshId nowDate nowIso item data = .error jsonErr := by
  have hnb : ¬ entity = "blogs" := fun hb => by
    rw [hb] at he; exact absurd he (by decide)
  simp only [create]
  rw [createBlogStep_skip _ _ _ _ hnb]
  show (createConsumablesStep entity item
      (createArraysStep item (createCore entity freshId item))).bind _ = .error jsonErr
  rw [consumablesStep_err entity he item _ s hv hne hbad]
  rfl

/-- C6 witness: a malformed `variants` string (`"\x7bnot json"`) makes a
`sauces` create fail with the parse error. -/
theorem C6_malformed_variants_create_witness :
    ("sauces" : String) ∈ consumableEntities ∧
    getF [("variants", JsVal.str "\x7bnot json")] "variants" = .str "\x7bnot json" ∧
    "\x7bnot json" ≠ "" ∧ jsonParse "\x7bnot json" = none ∧
    create "sauces" "i0" "d" "t" [("variants", .str "\x7bnot json")] [] = .error jsonErr :=
  ⟨by decide, rfl, by decide, rfl,
    C6_malformed_variants_create "sauces" (by decide) "i0" "d" "t"
      [("variants", .str "\x7bnot json")] [] "\x7bnot json" rfl (by decide) rfl⟩

/-- C6 counterexample: the empty string is not valid JSON, yet a
create supplying it as `variants` succeeds (the truthiness guard skips
parsing) and persists the document with `variants` still `""` —
contradicting the claim for that input. -/
theorem C6_counterexample :
    jsonParse "" = none ∧
    (create "beans" "i0" "d" "t" [("variants", .str "")] []).map (fun r => r.2.length) =
      .ok 1 ∧
    (create "beans" "i0" "d" "t" [("variants", .str "")] []).map
      (fun r => getF r.1 "variants") = .ok (.str "") :=
  ⟨rfl, rfl, rfl⟩

/-- C3 (amended).  `delete` with no matching document returns absent.
With a match, it returns the first matching document and persists the
collection filtered of **every** matching document (not only the
first): afterwards `getAll` contains no document matching the
identifier — in particular not the removed one — and a second delete
with the same identifier returns absent. -/
theorem C3_delete_spec (data : List Obj) (identifier : JsVal) :
    (findByIdOrSlug data identifier = none → delete data identifier = none) ∧
    (∀ d, findByIdOrSlug data identifier = some d →
      delete data identifier =
        some (d, data.filter (fun x => ! matchesIdent x identifier)) ∧
      (∀ x ∈ getAll (data.filter (fun x => ! matchesIdent x identifier)),
        matchesIdent x identifier = false) ∧
      d ∉ getAll (data.filter (fun x => ! matchesIdent x identifier)) ∧
      delete (data.filter (fun x => ! matchesIdent x identifier)) identifier = none) := by
  constructor
  · intro hf
    unfold delete
    rw [hf]
  · intro d hf
    have hmem : ∀ x ∈ data.filter (fun x => ! matchesIdent x identifier),
        matchesIdent x identifier = false := by
      intro x hx
      have hx2 := (List.mem_filter.mp hx).2
      simpa using hx2
    have hd : matchesIdent d identifier = true := by
      unfold findByIdOrSlug at hf
      have hd0 := List.find?_some hf
      exact hd0
    have hfn : findByIdOrSlug (data.filter (fun x => ! matchesIdent x identifier))
        identifier = none := by
      unfold findByIdOrSlug
      exact List.find?_eq_none.mpr (fun x hx => by simp [hmem x hx])
    refine ⟨?_, hmem, ?_, ?_⟩
    · unfold delete
      rw [hf]
    · intro hdin
      rw [hmem d hdin] at hd
      exact Bool.noConfusion hd
    · unfold delete
      rw [hfn]

/-- C3 witness: a no-match delete returns absent; a matching delete on
a two-document store returns the first document, leaves no matching
document behind, and a repeat delete returns absent. -/
theorem C3_delete_spec_witness :
    (delete [[("id", JsVal.str "a"), ("slug", JsVal.str "s")],
        [("id", JsVal.str "b"), ("slug", JsVal.str "t")]] (.str "zz") = none) ∧
    (delete [[("id", JsVal.str "a"), ("slug", JsVal.str "s")],
        [("id", JsVal.str "b"), ("slug", JsVal.str "t")]] (.str "a") =
      some ([("id", JsVal.str "a"), ("slug", JsVal.str "s")],
        List.filter (fun x => ! matchesIdent x (.str "a"))
          [[("id", JsVal.str "a"), ("slug", JsVal.str "s")],
           [("id", JsVal.str "b"), ("slug", JsVal.str "t")]]) ∧
     (∀ x ∈ getAll (List.filter (fun x => ! matchesIdent x (.str "a"))
          [[("id", JsVal.str "a"), ("slug", JsVal.str "s")],
           [("id", JsVal.str "b"), ("slug", JsVal.str "t")]]),
        matchesIdent x (.str "a") = false) ∧
     [("id", JsVal.str "a"), ("slug", JsVal.str "s")] ∉
        getAll (List.filter (fun x => ! matchesIdent x (.str "a"))
          [[("id", JsVal.str "a"), ("slug", JsVal.str "s")],
           [("id", JsVal.str "b"), ("slug", JsVal.str "t")]]) ∧
     delete (List.filter (fun x => ! matchesIdent x (.str "a"))
          [[("id", JsVal.str "a"), ("slug", JsVal.str "s")],
           [("id", JsVal.str "b"), ("slug", JsVal.str "t")]]) (.str "a") = none) :=
  ⟨(C3_delete_spec [[("id", JsVal.str "a"), ("slug", JsVal.str "s")],
      [("id", JsVal.str "b"), ("slug", JsVal.str "t")]] (.str "zz")).1 rfl,
   (C3_delete_spec [[("id", JsVal.str "a"), ("slug", JsVal.str "s")],
      [("id", JsVal.str "b"), ("slug", JsVal.str "t")]] (.str "a")).2
     [("id", JsVal.str "a"), ("slug", JsVal.str "s")] rfl⟩

/-- C3 counterexample: with two documents sharing the slug `"s"`,
delete removes **both** (the persisted collection is empty), not
"exactly the first" — removing only the first would have left the
second document. -/
theorem C3_counterexample :
    delete [[("id", JsVal.str "a"), ("slug", JsVal.str "s")],
        [("id", JsVal.str "b"), ("slug", JsVal.str "s")]] (.str "s") =
      some ([("id", JsVal.str "a"), ("slug", JsVal.str "s")], []) ∧
    ([] : List Obj) ≠ [[("id", JsVal.str "b"), ("slug", JsVal.str "s")]] :=
  ⟨rfl, fun hcon => List.noConfusion hcon⟩

theorem variantsSync_price (m0 : Obj) (v0 : JsVal) (vs : List JsVal) (p : JsVal)
    (m : Obj) (hp : getProp v0 "price" = .ok p)
    (h : variantsSync m0 (.arr (v0 :: vs)) = .ok m) :
    getF m "price" = p ∧ hasF m "price" = true ∧
    getF m "variants" = .arr (v0 :: vs) := by
  simp only [variantsSync] at h
  rw [hp] at h
  obtain rfl := okInj _ _ h
  simp [getF_setF, hasF_setF]

/-- In the consumables create stage, a `variants` value resolving to a
non-empty array stores the first variant's `price` on the document. -/
theorem createConsumablesStep_price (entity : String)
    (he : entity ∈ consumableEntities) (item n m : Obj)
    (v0 : JsVal) (vs : List JsVal) (p : JsVal)
    (hres : getF item "variants" = .arr (v0 :: vs) ∨
      (∃ s, getF item "variants" = .str s ∧ jsonParse s = some (.arr (v0 :: vs))))
    (hp : getProp v0 "price" = .ok p)
    (hC : createConsumablesStep entity item n = .ok m) :
    getF m "price" = p := by
  simp only [createConsumablesStep, if_pos he] at hC
  rcases hres with hv | ⟨s, hv, hjp⟩
  · have ht : (getF item "variants").truthy = true := by rw [hv]; rfl
    rw [if_pos ht, hv] at hC
    have hC2 : variantsSync
        (setF n "cupping_notes" (normalizeArray (getF item "cupping_notes")))
        (.arr (v0 :: vs)) = .ok m := hC
    exact (variantsSync_price _ _ _ _ _ hp hC2).1
  · have hne : s ≠ "" := by
      intro h0
      rw [h0] at hjp
      exact Option.noConfusion ((rfl : jsonParse "" = none) ▸ hjp)
    have ht : (getF item "variants").truthy = true := by
      rw [hv]; simp [JsVal.truthy, hne]
    rw [if_pos ht, hv] at hC
    have hC2 : (match jsonParseE s with
      | .error e => .error e
      | .ok variants =>
          variantsSync (setF n "cupping_notes" (normalizeArray (getF item "cupping_notes")))
            variants : Except String Obj) = .ok m := hC
    rw [show jsonParseE s = .ok (.arr (v0 :: vs)) by simp [jsonParseE, hjp]] at hC2
    have hC3 : variantsSync
        (setF n "cupping_notes" (normalizeArray (getF item "cupping_notes")))
        (.arr (v0 :: vs)) = .ok m := hC2
    exact (variantsSync_price _ _ _ _ _ hp hC3).1

/-- In the update variants stage, a `variants` value resolving to a
non-empty array overwrites `price` with the first variant's price. -/
theorem updVariantsStep_price (entity : String)
    (he : entity ∈ consumableEntities) (u : Obj)
    (v0 : JsVal) (vs : List JsVal) (p : JsVal)
    (hres : getF u "variants" = .arr (v0 :: vs) ∨
      (∃ s, getF u "variants" = .str s ∧ jsonParse s = some (.arr (v0 :: vs))))
    (hp : getProp v0 "price" = .ok p) :
    getF (updVariantsStep entity u) "price" = p ∧
    hasF (updVariantsStep entity u) "price" = true := by
  unfold updVariantsStep
  have hsync : variantsSync u (.arr (v0 :: vs)) =
      .ok (setF (setF u "variants" (.arr (v0 :: vs))) "price" p) := by
    simp only [variantsSync]
    rw [hp]
  rcases hres with hv | ⟨s, hv, hjp⟩
  · have ht : (getF u "variants").truthy = true := by rw [hv]; rfl
    rw [if_pos ⟨he, ht⟩, hv]
    simp [hsync, getF_setF, hasF_setF]
  · have hne : s ≠ "" := by
      intro h0
      rw [h0] at hjp
      exact Option.noConfusion ((rfl : jsonParse "" = none) ▸ hjp)
    have ht : (getF u "variants").truthy = true := by
      rw [hv]; simp [JsVal.truthy, hne]
    rw [if_pos ⟨he, ht⟩, hv]
    have hpe : jsonParseE s = .ok (.arr (v0 :: vs)) := by simp [jsonParseE, hjp]
    simp [hpe, hsync, getF_setF, hasF_setF]

/-- C5 (confirmed).  For `beans`, `syrups` and `sauces`: whenever
`create` or `update` receives a `variants` value that resolves (after
JSON parsing when textual) to a non-empty sequence whose first
element's `price` reads as `p`, the resulting stored document's
`price` equals `p`. -/
theorem C5_price_sync :
    (∀ entity, entity ∈ consumableEntities →
      ∀ freshId nowDate nowIso : String, ∀ item : Obj, ∀ data : List Obj,
      ∀ d : Obj, ∀ data' : List Obj, ∀ v0 : JsVal, ∀ vs : List JsVal, ∀ p : JsVal,
        (getF item "variants" = .arr (v0 :: vs) ∨
          (∃ s, getF item "variants" = .str s ∧ jsonParse s = some (.arr (v0 :: vs)))) →
        getProp v0 "price" = .ok p →
        create entity freshId nowDate nowIso item data = .ok (d, data') →
        getF d "price" = p) ∧
    (∀ entity, entity ∈ consumableEntities →
      ∀ identifier : JsVal, ∀ u : Obj, ∀ data : List Obj,
      ∀ d : Obj, ∀ data' : List Obj, ∀ v0 : JsVal, ∀ vs : List JsVal, ∀ p : JsVal,
        (getF u "variants" = .arr (v0 :: vs) ∨
          (∃ s, getF u "variants" = .str s ∧ jsonParse s = some (.arr (v0 :: vs)))) →
        getProp v0 "price" = .ok p →
        update entity identifier u data = .ok (some (d, data')) →
        getF d "price" = p) := by
  constructor
  · intro entity he freshId nowDate nowIso item data d data' v0 vs p hres hp h
    simp only [create] at h
    obtain ⟨n4, hB, h⟩ := exceptBind_ok _ _ _ h
    obtain ⟨n7, hC, h⟩ := exceptBind_ok _ _ _ h
    obtain ⟨n8, hM, h⟩ := exceptBind_ok _ _ _ h
    obtain ⟨n9, hO, h⟩ := exceptBind_ok _ _ _ h
    obtain ⟨n10, hK, h⟩ := exceptBind_ok _ _ _ h
    have hpair := okInj _ _ h
    injection hpair with h1 h2
    subst h1
    subst h2
    have c4 := (createMachinesStep_getF _ _ _ _ hM "price" (by decide) (by simp)).1
    have c5 := (createOrdersStep_getF _ _ _ _ _ hO "price" (by decide) (by simp)
      (by decide) (by simp) (by decide) (by simp) (by decide) (by simp)
      (by decide)).1
    have c6 := (createCouponsStep_getF _ _ _ _ hK "price" (by decide) (by simp)
      (by decide) (by simp) (by decide) (by simp) (by decide) (by simp)).1
    rw [c6, c5, c4]
    exact createConsumablesStep_price entity he item _ _ v0 vs p hres hp hC
  · intro entity he identifier u data d data' v0 vs p hres hp h
    simp only [update] at h
    cases hfind : data.findIdx? (fun it => matchesIdent it identifier) with
    | none =>
        rw [hfind] at h
        exact absurd (okInj _ _ h) (fun hcon => Option.noConfusion hcon)
    | some i =>
        rw [hfind] at h
        obtain ⟨u1, hnorm, h2⟩ := exceptBind_ok _ _ _ h
        have h3 := okInj _ _ h2
        injection h3 with h4
        injection h4 with hd hdata
        unfold normUpdates at hnorm
        obtain ⟨u6, hB, hK⟩ := exceptBind_ok _ _ _ hnorm
        have lD := updDynamicProps_getF u "variants" (by decide) (by simp)
        have lF := updFlags_getF entity (updDynamicProps u) "variants"
          (by decide) (by simp) (by decide)
        have lB := updBlogStep_getF _ _ _ hB "variants" (by decide)
        have lL := updListFields_getF u6 "variants" (by decide) (by simp)
        have hres2 : getF (updListFields u6) "variants" = .arr (v0 :: vs) ∨
            (∃ s, getF (updListFields u6) "variants" = .str s ∧
              jsonParse s = some (.arr (v0 :: vs))) := by
          rw [lL.1, lB.1, lF.1, lD.1]
          exact hres
        have hvp := updVariantsStep_price entity he (updListFields u6) v0 vs p hres2 hp
        have lI := updItemsStep_getF entity (updVariantsStep entity (updListFields u6))
          "price" (by decide)
        have lK := updCouponsStep_getF _ _ _ hK "price" (by decide) (by simp)
          (by decide) (by simp) (by decide)
        have hu1p : getF u1 "price" = p := by rw [lK.1, lI.1, hvp.1]
        have hu1h : hasF u1 "price" = true := by rw [lK.2, lI.2, hvp.2]
        rw [← hd]
        rw [getF_mergeObj_of_hasF _ _ _ hu1h]
        exact hu1p

/-- C5 witness: a create and an update, each supplying a textual
one-variant list whose `price` is the string `"1700"` / `"999"`; both
stored documents carry that price. -/
theorem C5_price_sync_witness :
    create "beans" "i0" "d" "t" [("variants", .str "[\x7b\x22price\x22:\x221700\x22\x7d]")] [] =
      .ok ([("variants", (.arr [(.obj [("price", (.str "1700"))])])), ("id", (.str "i0")),
        ("slug", (.str "item")), ("isFeatured", (.bool false)), ("inStock", (.bool false)),
        ("keywords", (.arr [])), ("images", (.arr [])), ("cupping_notes", (.arr [])),
        ("price", (.str "1700"))],
        [[("variants", (.arr [(.obj [("price", (.str "1700"))])])), ("id", (.str "i0")),
        ("slug", (.str "item")), ("isFeatured", (.bool false)), ("inStock", (.bool false)),
        ("keywords", (.arr [])), ("images", (.arr [])), ("cupping_notes", (.arr [])),
        ("price", (.str "1700"))]]) ∧
    getF [("variants", (.arr [(.obj [("price", (.str "1700"))])])), ("id", (.str "i0")),
        ("slug", (.str "item")), ("isFeatured", (.bool false)), ("inStock", (.bool false)),
        ("keywords", (.arr [])), ("images", (.arr [])), ("cupping_notes", (.arr [])),
        ("price", (.str "1700"))] "price" = .str "1700" ∧
    update "beans" (.str "a0") [("variants", .str "[\x7b\x22price\x22:\x22999\x22\x7d]")]
        [[("id", .str "a0")]] =
      .ok (some ([("id", (.str "a0")), ("variants", (.arr [(.obj [("price", (.str "999"))])])),
        ("price", (.str "999"))],
        [[("id", (.str "a0")), ("variants", (.arr [(.obj [("price", (.str "999"))])])),
        ("price", (.str "999"))]])) ∧
    getF [("id", (.str "a0")), ("variants", (.arr [(.obj [("price", (.str "999"))])])),
        ("price", (.str "999"))] "price" = .str "999" :=
  ⟨rfl,
   C5_price_sync.1 "beans" (by decide) "i0" "d" "t"
     [("variants", .str "[\x7b\x22price\x22:\x221700\x22\x7d]")] [] _ _
     (.obj [("price", (.str "1700"))]) [] (.str "1700")
     (Or.inr ⟨"[\x7b\x22price\x22:\x221700\x22\x7d]", rfl, rfl⟩) rfl rfl,
   rfl,
   C5_price_sync.2 "beans" (by decide) (.str "a0")
     [("variants", .str "[\x7b\x22price\x22:\x22999\x22\x7d]")] [[("id", .str "a0")]] _ _
     (.obj [("price", (.str "999"))]) [] (.str "999")
     (Or.inr ⟨"[\x7b\x22price\x22:\x22999\x22\x7d]", rfl, rfl⟩) rfl rfl⟩

/-- C1 (amended).  An update whose field bag does not itself contain
`id` or `slug` keys leaves the matched document's `id` and `slug`
unchanged; fields absent from the normalized update bag are left
as-is and fields present in it are shallow-merged over the previous
document; the persisted collection replaces only the matched index.
(When the bag does contain `id` or `slug`, the merge overwrites them
like any other field — see the counterexample.) -/
theorem C1_update_frame (entity : String) (identifier : JsVal) (u : Obj)
    (data : List Obj) (i : Nat) (prev u1 d : Obj) (data' : List Obj)
    (hid : hasF u "id" = false) (hslug : hasF u "slug" = false)
    (hidx : data.findIdx? (fun it => matchesIdent it identifier) = some i)
    (hprev : data.get? i = some prev)
    (hnorm : normUpdates entity u = .ok u1)
    (h : update entity identifier u data = .ok (some (d, data'))) :
    getF d "id" = getF prev "id" ∧
    getF d "slug" = getF prev "slug" ∧
    (∀ k, hasF u1 k = false → getF d k = getF prev k) ∧
    (∀ k, hasF u1 k = true → getF d k = getF u1 k) ∧
    data' = data.set i d := by
  obtain ⟨hd, hdata⟩ :=
    update_ok_spec entity identifier u data i prev u1 d data' hidx hprev hnorm h
  subst hd
  have hkid := (normUpdates_keeps entity u u1 hnorm "id" (by decide) (by simp)
    (by decide) (by simp) (by decide) (by simp) (by decide) (by simp)
    (by decide) (by simp) (by decide) (by simp) (by decide) (by simp)
    (by decide) (by simp)).2
  have hkslug := (normUpdates_keeps entity u u1 hnorm "slug" (by decide) (by simp)
    (by decide) (by simp) (by decide) (by simp) (by decide) (by simp)
    (by decide) (by simp) (by decide) (by simp) (by decide) (by simp)
    (by decide) (by simp)).2
  refine ⟨?_, ?_, ?_, ?_, hdata⟩
  · exact getF_mergeObj_of_not_hasF _ _ _ (hkid.trans hid)
  · exact getF_mergeObj_of_not_hasF _ _ _ (hkslug.trans hslug)
  · intro k hk
    exact getF_mergeObj_of_not_hasF _ _ _ hk
  · intro k hk
    exact getF_mergeObj_of_hasF _ _ _ hk

/-- C1 witness: an update of a `machines` document touching only
`power` keeps `id` and `slug`, keeps an untouched key (`name`, here
absent on both sides), and installs the supplied `power`. -/
theorem C1_update_frame_witness :
    update "machines" (.str "m1") [("power", .str "1200W")]
      [[("id", .str "m1"), ("slug", .str "mach"), ("power", .str "900W")]] =
      .ok (some ([("id", (.str "m1")), ("slug", (.str "mach")), ("power", (.str "1200W"))],
        [[("id", (.str "m1")), ("slug", (.str "mach")), ("power", (.str "1200W"))]])) ∧
    getF [("id", (.str "m1")), ("slug", (.str "mach")), ("power", (.str "1200W"))] "id" =
      getF [("id", .str "m1"), ("slug", .str "mach"), ("power", .str "900W")] "id" ∧
    getF [("id", (.str "m1")), ("slug", (.str "mach")), ("power", (.str "1200W"))] "slug" =
      getF [("id", .str "m1"), ("slug", .str "mach"), ("power", .str "900W")] "slug" ∧
    getF [("id", (.str "m1")), ("slug", (.str "mach")), ("power", (.str "1200W"))] "name" =
      getF [("id", .str "m1"), ("slug", .str "mach"), ("power", .str "900W")] "name" ∧
    getF [("id", (.str "m1")), ("slug", (.str "mach")), ("power", (.str "1200W"))] "power" =
      getF [("power", JsVal.str "1200W")] "power" :=
  ⟨rfl,
   (C1_update_frame "machines" (.str "m1") [("power", .str "1200W")]
     [[("id", .str "m1"), ("slug", .str "mach"), ("power", .str "900W")]] 0
     [("id", .str "m1"), ("slug", .str "mach"), ("power", .str "900W")]
     [("power", JsVal.str "1200W")] _ _ rfl rfl rfl rfl rfl rfl).1,
   (C1_update_frame "machines" (.str "m1") [("power", .str "1200W")]
     [[("id", .str "m1"), ("slug", .str "mach"), ("power", .str "900W")]] 0
     [("id", .str "m1"), ("slug", .str "mach"), ("power", .str "900W")]
     [("power", JsVal.str "1200W")] _ _ rfl rfl rfl rfl rfl rfl).2.1,
   (C1_update_frame "machines" (.str "m1") [("power", .str "1200W")]
     [[("id", .str "m1"), ("slug", .str "mach"), ("power", .str "900W")]] 0
     [("id", .str "m1"), ("slug", .str "mach"), ("power", .str "900W")]
     [("power", JsVal.str "1200W")] _ _ rfl rfl rfl rfl rfl rfl).2.2.1 "name" rfl,
   (C1_update_frame "machines" (.str "m1") [("power", .str "1200W")]
     [[("id", .str "m1"), ("slug", .str "mach"), ("power", .str "900W")]] 0
     [("id", .str "m1"), ("slug", .str "mach"), ("power", .str "900W")]
     [("power", JsVal.str "1200W")] _ _ rfl rfl rfl rfl rfl rfl).2.2.2.1 "power" rfl⟩

/-- C1 counterexample: when the update bag itself contains a `slug`
key, the shallow merge overwrites the document's slug — `db.update`
does not protect the identity fields. -/
theorem C1_counterexample :
    (update "beans" (.str "a") [("slug", .str "x")]
        [[("id", .str "a"), ("slug", .str "s")]]).map
      (Option.map (fun r => getF r.1 "slug")) = .ok (some (.str "x")) ∧
    JsVal.str "x" ≠ JsVal.str "s" :=
  ⟨rfl, by
    intro hcon
    injection hcon with h'
    exact absurd h' (by decide)⟩

theorem parseFieldIfStr_bad (u : Obj) (key : String) (fb : JsVal) (s : String)
    (hv : getF u key = .str s) (hne : s ≠ "") (hbad : jsonParse s = none) :
    getF (parseFieldIfStr u key fb) key = fb ∧
    hasF (parseFieldIfStr u key fb) key = true := by
  unfold parseFieldIfStr
  rw [hv]
  simp [hne, hbad, getF_setF, hasF_setF]

/-- The update variants stage's `catch`: a truthy string that fails to
parse resets `variants` to the empty array (and leaves `price`
alone). -/
theorem updVariantsStep_catch (entity : String)
    (he : entity ∈ consumableEntities) (u : Obj) (s : String)
    (hv : getF u "variants" = .str s) (hne : s ≠ "")
    (hbad : jsonParse s = none) :
    getF (updVariantsStep entity u) "variants" = .arr [] ∧
    hasF (updVariantsStep entity u) "variants" = true := by
  unfold updVariantsStep
  have ht : (getF u "variants").truthy = true := by
    rw [hv]; simp [JsVal.truthy, hne]
  rw [if_pos ⟨he, ht⟩, hv]
  have hpe : jsonParseE s = .error jsonErr := by simp [jsonParseE, hbad]
  simp [hpe, getF_setF, hasF_setF]

/-- C7 (amended).  On update, a **non-empty** string that fails to
parse as JSON is swallowed: `variants` (beans/syrups/sauces) and
order `items` become the empty sequence, `specifications` and
`features` become the empty mapping, and — for an entity whose update
pipeline has no other throwing coercion (any entity other than
`blogs` and `coupons`) — the update still succeeds and persists the
merged document.  (The empty string, also invalid JSON, is falsy and
is carried through unchanged — see the counterexample.) -/
theorem C7_update_parse_fallbacks :
    (∀ entity, entity ∈ consumableEntities →
      ∀ identifier : JsVal, ∀ u : Obj, ∀ data : List Obj, ∀ d : Obj,
      ∀ data' : List Obj, ∀ s : String,
        getF u "variants" = .str s → s ≠ "" → jsonParse s = none →
        update entity identifier u data = .ok (some (d, data')) →
        getF d "variants" = .arr []) ∧
    (∀ identifier : JsVal, ∀ u : Obj, ∀ data : List Obj, ∀ d : Obj,
      ∀ data' : List Obj, ∀ s : String,
        getF u "items" = .str s → s ≠ "" → jsonParse s = none →
        update "orders" identifier u data = .ok (some (d, data')) →
        getF d "items" = .arr []) ∧
    (∀ entity : String, ∀ identifier : JsVal, ∀ u : Obj, ∀ data : List Obj,
      ∀ d : Obj, ∀ data' : List Obj, ∀ s : String,
        getF u "specifications" = .str s → s ≠ "" → jsonParse s = none →
        update entity identifier u data = .ok (some (d, data')) →
        getF d "specifications" = .obj []) ∧
    (∀ entity : String, ∀ identifier : JsVal, ∀ u : Obj, ∀ data : List Obj,
      ∀ d : Obj, ∀ data' : List Obj, ∀ s : String,
        getF u "features" = .str s → s ≠ "" → jsonParse s = none →
        update entity identifier u data = .ok (some (d, data')) →
        getF d "features" = .obj []) ∧
    (∀ entity : String, entity ≠ "blogs" → entity ≠ "coupons" →
      ∀ identifier : JsVal, ∀ u : Obj, ∀ data : List Obj, ∀ i : Nat,
        data.findIdx? (fun it => matchesIdent it identifier) = some i →
        ∃ d, ∃ data', update entity identifier u data = .ok (some (d, data'))) := by
  refine ⟨?pVar, ?pItems, ?pSpecs, ?pFeats, ?pOk⟩
  case pVar =>
    intro entity he identifier u data d data' s hv hne hbad h
    simp only [update] at h
    cases hfind : data.findIdx? (fun it => matchesIdent it identifier) with
    | none =>
        rw [hfind] at h
        exact absurd (okInj _ _ h) (fun hcon => Option.noConfusion hcon)
    | some i =>
        rw [hfind] at h
        obtain ⟨u1, hnorm, h2⟩ := exceptBind_ok _ _ _ h
        have h3 := okInj _ _ h2
        injection h3 with h4
        injection h4 with hd hdata
        unfold normUpdates at hnorm
        obtain ⟨u6, hB, hK⟩ := exceptBind_ok _ _ _ hnorm
        have lD := updDynamicProps_getF u "variants" (by decide) (by simp)
        have lF := updFlags_getF entity (updDynamicProps u) "variants"
          (by decide) (by simp) (by decide)
        have lB := updBlogStep_getF _ _ _ hB "variants" (by decide)
        have lL := updListFields_getF u6 "variants" (by decide) (by simp)
        have hv2 : getF (updListFields u6) "variants" = .str s := by
          rw [lL.1, lB.1, lF.1, lD.1, hv]
        have hcatch := updVariantsStep_catch entity he (updListFields u6) s hv2 hne hbad
        have lI := updItemsStep_getF entity (updVariantsStep entity (updListFields u6))
          "variants" (by decide)
        have lK := updCouponsStep_getF _ _ _ hK "variants" (by decide) (by simp)
          (by decide) (by simp) (by decide)
        have hu1v : getF u1 "variants" = .arr [] := by rw [lK.1, lI.1, hcatch.1]
        have hu1h : hasF u1 "variants" = true := by rw [lK.2, lI.2, hcatch.2]
        rw [← hd, getF_mergeObj_of_hasF _ _ _ hu1h]
        exact hu1v
  · intro identifier u data d data' s hv hne hbad h
    simp only [update] at h
    cases hfind : data.findIdx? (fun it => matchesIdent it identifier) with
    | none =>
        rw [hfind] at h
        exact absurd (okInj _ _ h) (fun hcon => Option.noConfusion hcon)
    | some i =>
        rw [hfind] at h
        obtain ⟨u1, hnorm, h2⟩ := exceptBind_ok _ _ _ h
        have h3 := okInj _ _ h2
        injection h3 with h4
        injection h4 with hd hdata
        unfold normUpdates at hnorm
        obtain ⟨u6, hB, hK⟩ := exceptBind_ok _ _ _ hnorm
        have lD := updDynamicProps_getF u "items" (by decide) (by simp)
        have lF := updFlags_getF "orders" (updDynamicProps u) "items"
          (by decide) (by simp) (by decide)
        have lB := updBlogStep_getF _ _ _ hB "items" (by decide)
        have lL := updListFields_getF u6 "items" (by decide) (by simp)
        have lV := updVariantsStep_getF "orders" (updListFields u6) "items"
          (by decide) (by simp)
        have hv2 : getF (updVariantsStep "orders" (updListFields u6)) "items" = .str s := by
          rw [lV.1, lL.1, lB.1, lF.1, lD.1, hv]
        have hbad2 := parseFieldIfStr_bad (updVariantsStep "orders" (updListFields u6))
          "items" (.arr []) s hv2 hne hbad
        have hI : updItemsStep "orders" (updVariantsStep "orders" (updListFields u6)) =
            parseFieldIfStr (updVariantsStep "orders" (updListFields u6)) "items" (.arr []) := by
          unfold updItemsStep
          rw [if_pos rfl]
        have lK := updCouponsStep_getF _ _ _ hK "items" (by decide) (by simp)
          (by decide) (by simp) (by decide)
        have hu1v : getF u1 "items" = .arr [] := by rw [lK.1, hI, hbad2.1]
        have hu1h : hasF u1 "items" = true := by rw [lK.2, hI, hbad2.2]
        rw [← hd, getF_mergeObj_of_hasF _ _ _ hu1h]
        exact hu1v
  · intro entity identifier u data d data' s hv hne hbad h
    simp only [update] at h
    cases hfind : data.findIdx? (fun it => matchesIdent it identifier) with
    | none =>
        rw [hfind] at h
        exact absurd (okInj _ _ h) (fun hcon => Option.noConfusion hcon)
    | some i =>
        rw [hfind] at h
        obtain ⟨u1, hnorm, h2⟩ := exceptBind_ok _ _ _ h
        have h3 := okInj _ _ h2
        injection h3 with h4
        injection h4 with hd hdata
        unfold normUpdates at hnorm
        obtain ⟨u6, hB, hK⟩ := exceptBind_ok _ _ _ hnorm
        have hspec := parseFieldIfStr_bad u "specifications" (.obj []) s hv hne hbad
        have hfeat := parseFieldIfStr_getF (parseFieldIfStr u "specifications" (.obj []))
          "features" (.obj []) "specifications" (by decide)
        have hD : getF (updDynamicProps u) "specifications" = .obj [] ∧
            hasF (updDynamicProps u) "specifications" = true := by
          unfold updDynamicProps
          exact ⟨hfeat.1.trans hspec.1, hfeat.2.trans hspec.2⟩
        have lF := updFlags_getF entity (updDynamicProps u) "specifications"
          (by decide) (by simp) (by decide)
        have lB := updBlogStep_getF _ _ _ hB "specifications" (by decide)
        have lL := updListFields_getF u6 "specifications" (by decide) (by simp)
        have lV := updVariantsStep_getF entity (updListFields u6) "specifications"
          (by decide) (by simp)
        have lI := updItemsStep_getF entity (updVariantsStep entity (updListFields u6))
          "specifications" (by decide)
        have lK := updCouponsStep_getF _ _ _ hK "specifications" (by decide) (by simp)
          (by decide) (by simp) (by decide)
        have hu1v : getF u1 "specifications" = .obj [] := by
          rw [lK.1, lI.1, lV.1, lL.1, lB.1, lF.1, hD.1]
        have hu1h : hasF u1 "specifications" = true := by
          rw [lK.2, lI.2, lV.2, lL.2, lB.2, lF.2, hD.2]
        rw [← hd, getF_mergeObj_of_hasF _ _ _ hu1h]
        exact hu1v
  · intro entity identifier u data d data' s hv hne hbad h
    simp only [update] at h
    cases hfind : data.findIdx? (fun it => matchesIdent it identifier) with
    | none =>
        rw [hfind] at h
        exact absurd (okInj _ _ h) (fun hcon => Option.noConfusion hcon)
    | some i =>
        rw [hfind] at h
        obtain ⟨u1, hnorm, h2⟩ := exceptBind_ok _ _ _ h
        have h3 := okInj _ _ h2
        injection h3 with h4
        injection h4 with hd hdata
        unfold normUpdates at hnorm
        obtain ⟨u6, hB, hK⟩ := exceptBind_ok _ _ _ hnorm
        have hkeep := parseFieldIfStr_getF u "specifications" (.obj []) "features"
          (by decide)
        have hv1 : getF (parseFieldIfStr u "specifications" (.obj [])) "features" = .str s := by
          rw [hkeep.1, hv]
        have hfeat := parseFieldIfStr_bad (parseFieldIfStr u "specifications" (.obj []))
          "features" (.obj []) s hv1 hne hbad
        have hD : getF (updDynamicProps u) "features" = .obj [] ∧
            hasF (updDynamicProps u) "features" = true := by
          unfold updDynamicProps
          exact ⟨hfeat.1, hfeat.2⟩
        have lF := updFlags_getF entity (updDynamicProps u) "features"
          (by decide) (by simp) (by decide)
        have lB := updBlogStep_getF _ _ _ hB "features" (by decide)
        have lL := updListFields_getF u6 "features" (by decide) (by simp)
        have lV := updVariantsStep_getF entity (updListFields u6) "features"
          (by decide) (by simp)
        have lI := updItemsStep_getF entity (updVariantsStep entity (updListFields u6))
          "features" (by decide)
        have lK := updCouponsStep_getF _ _ _ hK "features" (by decide) (by simp)
          (by decide) (by simp) (by decide)
        have hu1v : getF u1 "features" = .obj [] := by
          rw [lK.1, lI.1, lV.1, lL.1, lB.1, lF.1, hD.1]
        have hu1h : hasF u1 "features" = true := by
          rw [lK.2, lI.2, lV.2, lL.2, lB.2, lF.2, hD.2]
        rw [← hd, getF_mergeObj_of_hasF _ _ _ hu1h]
        exact hu1v
  · intro entity h1 h2 identifier u data i hidx
    have hupd : update entity identifier u data =
        .ok (some (mergeObj ((data.get? i).getD [])
          (updItemsStep entity (updVariantsStep entity (updListFields
            (updFlags entity (updDynamicProps u))))),
          data.set i (mergeObj ((data.get? i).getD [])
            (updItemsStep entity (updVariantsStep entity (updListFields
              (updFlags entity (updDynamicProps u)))))))) := by
      simp only [update]
      rw [hidx, normUpdates_ok entity u h1 h2]
      rfl
    exact ⟨_, _, hupd⟩

/-- C7 witness: each fallback at a concrete malformed non-empty
string, plus a successful `beans` update carrying one. -/
theorem C7_update_parse_fallbacks_witness :
    ((update "beans" (.str "a") [("variants", .str "[broken")]
        [[("id", .str "a"), ("slug", .str "s")]]).map
      (Option.map (fun r => getF r.1 "variants")) = .ok (some (.arr []))) ∧
    getF [("id", (.str "a")), ("slug", (.str "s")), ("variants", (.arr []))] "variants" =
      .arr [] ∧
    getF [("id", (.str "o1")), ("items", (.arr []))] "items" = .arr [] ∧
    getF [("id", (.str "m1")), ("specifications", (.obj []))] "specifications" = .obj [] ∧
    getF [("id", (.str "m1")), ("features", (.obj []))] "features" = .obj [] ∧
    (∃ d, ∃ data', update "beans" (.str "a") [("variants", .str "[broken")]
        [[("id", .str "a"), ("slug", .str "s")]] = .ok (some (d, data'))) :=
  ⟨rfl,
   C7_update_parse_fallbacks.1 "beans" (by decide) (.str "a")
     [("variants", .str "[broken")] [[("id", .str "a"), ("slug", .str "s")]]
     [("id", (.str "a")), ("slug", (.str "s")), ("variants", (.arr []))]
     [[("id", (.str "a")), ("slug", (.str "s")), ("variants", (.arr []))]]
     "[broken" rfl (by decide) rfl rfl,
   C7_update_parse_fallbacks.2.1 (.str "o1") [("items", .str "\x7bx")]
     [[("id", .str "o1")]] [("id", (.str "o1")), ("items", (.arr []))]
     [[("id", (.str "o1")), ("items", (.arr []))]] "\x7bx" rfl (by decide) rfl rfl,
   C7_update_parse_fallbacks.2.2.1 "machines" (.str "m1")
     [("specifications", .str "nope")] [[("id", .str "m1")]]
     [("id", (.str "m1")), ("specifications", (.obj []))]
     [[("id", (.str "m1")), ("specifications", (.obj []))]] "nope" rfl (by decide) rfl rfl,
   C7_update_parse_fallbacks.2.2.2.1 "machines" (.str "m1")
     [("features", .str "nope")] [[("id", .str "m1")]]
     [("id", (.str "m1")), ("features", (.obj []))]
     [[("id", (.str "m1")), ("features", (.obj []))]] "nope" rfl (by decide) rfl rfl,
   C7_update_parse_fallbacks.2.2.2.2 "beans" (by decide) (by simp) (.str "a")
     [("variants", .str "[broken")] [[("id", .str "a"), ("slug", .str "s")]] 0 rfl⟩

/-- C7 counterexample: an empty-string `variants` is a string that
fails to parse as JSON, yet the update keeps it as `""` instead of
replacing it with the empty sequence (the truthiness guard skips the
`try`/`catch` entirely). -/
theorem C7_counterexample :
    jsonParse "" = none ∧
    (update "beans" (.str "a") [("variants", .str "")]
        [[("id", .str "a"), ("slug", .str "s")]]).map
      (Option.map (fun r => getF r.1 "variants")) = .ok (some (.str "")) ∧
    JsVal.str "" ≠ JsVal.arr [] :=
  ⟨rfl, rfl, fun hcon => JsVal.noConfusion hcon⟩

end CoffeeLab
